import Mathlib

/-!
# Verification of the MiniOS (Lrix) kernel core

A shallow embedding of the kernel's virtual-memory manager
(`src/kernel/mem/vmm.c`), process subsystem (`src/kernel/proc/proc.c`) and
the `SYS_EXEC` branch of the trap dispatcher (`src/kernel/trap/trap.c`),
together with theorems settling the specification claims.

Modelling conventions:
* Machine integers (`uint64_t`, pointers) are `Nat` with explicit `% 2 ^ 64`
  where the C code can wrap; `int` return codes and pids are `Int`.
* The C shift/mask idioms are written arithmetically: `x >> 12` is
  `x / 4096`, `x << 10` is `x * 1024`, `x & 0x1FF` is `x % 512`,
  a single-bit test `x & (1 << k)` is `x / 2 ^ k % 2`, and `a | b` for values with disjoint
  bit ranges is `a + b` (each such translation is noted at its definition).
* Memory is a typed heap, as in seL4-style developments: page-table pages
  live in `tables : Nat → Nat → Nat` (page address and entry index to PTE
  value) and data bytes live in `phys : Nat → Nat`.  The physical page
  allocator (`kalloc`/`kfree`, whose implementation `kmem.c` is outside
  the given sources) is modelled from the spec as a free list of page
  addresses.  Well-formedness hypotheses (`VMWF`) record the disjointness
  the real allocator provides (distinct, aligned, nonzero pages disjoint
  from the live page tables).
* The kernel runs identity-mapped (see the comments in `vmm.c`), so kernel
  pointer accesses (page-table walks, `page_zero`, the kernel-stack copy in
  `proc_fork`) read and write their addresses directly, while the user-heap
  copy in `proc_fork` targets virtual addresses that `vmm_map_page` has just
  re-mapped, and is therefore modelled through `vmm_translate`.
-/

namespace MiniOS

/-- `VMM_PAGE_SIZE` / `PAGE_SIZE`: 4 KiB pages. -/
def PAGE_SIZE : Nat := 4096

/-- `HEAP_USER_BASE` from `proc.c`. -/
def HEAP_USER_BASE : Nat := 0x80400000

/-- `PER_PROC_HEAP` from `proc.c`: 8 KiB per process. -/
def PER_PROC_HEAP : Nat := 8 * 1024

/-- `SV39_VPN2(va) = (va >> 30) & 0x1FF`. -/
def vpn2 (va : Nat) : Nat := (va / 2 ^ 30) % 512

/-- `SV39_VPN1(va) = (va >> 21) & 0x1FF`. -/
def vpn1 (va : Nat) : Nat := (va / 2 ^ 21) % 512

/-- `SV39_VPN0(va) = (va >> 12) & 0x1FF`. -/
def vpn0 (va : Nat) : Nat := (va / 2 ^ 12) % 512

/-- `SV39_PAGE_OFFSET(va) = va & 0xFFF`. -/
def pageOffset (va : Nat) : Nat := va % 4096

/-- `make_pte(paddr, flags) = ((paddr >> 12) << 10) | (flags & 0x3FF)`.
The two operands of the C `|` have disjoint bit ranges (the left one is a
multiple of 1024, the right one is below 1024), so `|` is `+`. -/
def make_pte (paddr flags : Nat) : Nat := paddr / 4096 * 1024 + flags % 1024

/-- `pte_to_phys(pte) = (pte >> 10) << 12` in `uint64_t` arithmetic. -/
def pte_to_phys (pte : Nat) : Nat := pte / 1024 * 4096 % 2 ^ 64

/-- `vmm_flags_to_pte_flags`: `VMM_P_PRESENT → PTE_V`,
`VMM_P_RW → PTE_R|PTE_W|PTE_X`, `VMM_P_USER → PTE_U`, always `PTE_A|PTE_D`.
The C `f |=` steps set disjoint bits, so they are written as `+`. -/
def vmm_flags_to_pte_flags (flags : Nat) : Nat :=
  (if flags % 2 = 1 then 1 else 0) +
  (if flags / 2 % 2 = 1 then 2 + 4 + 8 else 0) +
  (if flags / 4 % 2 = 1 then 16 else 0) +
  (64 + 128)

/-- The virtual-memory state: the kernel root table pointer `kernel_pd`
(0 is `NULL`), the typed page-table heap, the data-byte heap, and the
physical page allocator's free list (modelled from the spec: `kmem.c` is
not among the given sources; `kalloc` pops the head, `kfree` pushes). -/
structure VMState where
  kernelPd : Nat
  tables : Nat → Nat → Nat
  phys : Nat → Nat
  freeList : List Nat

/-- Modelled from the spec: `kalloc() → page | null` pops the free list
(`§4.1`: 4 KiB naturally aligned pages, null when exhausted). -/
def kalloc (st : VMState) : Option Nat × VMState :=
  match st.freeList with
  | [] => (none, st)
  | a :: rest => (some a, { st with freeList := rest })

/-- Modelled from the spec: `kfree(page)` returns the page to the free list. -/
def kfree (st : VMState) (a : Nat) : VMState :=
  { st with freeList := a :: st.freeList }

/-- Write one page-table entry: `table[idx] = v`. -/
def writeTable (st : VMState) (a i v : Nat) : VMState :=
  { st with tables := fun x j => if x = a ∧ j = i then v else st.tables x j }

/-- `page_zero` applied to a freshly allocated page-table page
(`alloc_page_table_page`): the whole table becomes zero. -/
def zeroTablePage (st : VMState) (a : Nat) : VMState :=
  { st with tables := fun x j => if x = a then 0 else st.tables x j }

/-- `page_zero` applied to a data page (in `vmm_map_page`): the 4096 bytes
at `a` become zero. -/
def zeroDataPage (st : VMState) (a : Nat) : VMState :=
  { st with phys := fun x => if a ≤ x ∧ x < a + 4096 then 0 else st.phys x }

/-- `get_next_level(pt, idx, alloc)`.  The C function returns a pointer
(null on failure), so the result is a `Nat` with `0` standing for `NULL`,
exactly as the callers' `if (!l1)` tests read it.  When the entry is valid
the returned table address is `pte_to_phys pte` (identity mapping). -/
def getNextLevel (st : VMState) (pt idx : Nat) (alloc : Bool) : Nat × VMState :=
  let pte := st.tables pt idx
  if pte % 2 = 0 then
    if ¬ alloc then (0, st)
    else
      match kalloc st with
      | (none, st1) => (0, st1)
      | (some page, st1) =>
        let st2 := zeroTablePage st1 page
        (page, writeTable st2 pt idx (make_pte page 1))
  else (pte_to_phys pte, st)

/-- `vmm_map(vaddr, paddr, flags) → 0 | -1` (`vmm.c:285`). -/
def vmm_map (st : VMState) (vaddr paddr flags : Nat) : Int × VMState :=
  if st.kernelPd = 0 then (-1, st)
  else
    let va := vaddr % 2 ^ 64
    let pa := paddr % 2 ^ 64
    if va % 4096 ≠ 0 ∨ pa % 4096 ≠ 0 then (-1, st)
    else
      let p1 := getNextLevel st st.kernelPd (vpn2 va) true
      if p1.1 = 0 then (-1, p1.2)
      else
        let p0 := getNextLevel p1.2 p1.1 (vpn1 va) true
        if p0.1 = 0 then (-1, p0.2)
        else
          (0, writeTable p0.2 p0.1 (vpn0 va)
                (make_pte pa (vmm_flags_to_pte_flags (flags ||| 1))))

/-- `vmm_map_page(vaddr, flags) → 0 | -1` (`vmm.c:314`): allocate a
physical page, zero it, map it; on map failure free the page. -/
def vmm_map_page (st : VMState) (vaddr flags : Nat) : Int × VMState :=
  match kalloc st with
  | (none, st1) => (-1, st1)
  | (some phys, st1) =>
    let st2 := zeroDataPage st1 phys
    let r := vmm_map st2 vaddr phys flags
    if r.1 ≠ 0 then (-1, kfree r.2 phys) else (0, r.2)

/-- `vmm_unmap(vaddr, free_phys) → 0 | -1` (`vmm.c:329`). -/
def vmm_unmap (st : VMState) (vaddr : Nat) (free_phys : Int) : Int × VMState :=
  if st.kernelPd = 0 then (-1, st)
  else
    let va := vaddr % 2 ^ 64
    if va % 4096 ≠ 0 then (-1, st)
    else
      let p1 := getNextLevel st st.kernelPd (vpn2 va) false
      if p1.1 = 0 then (-1, p1.2)
      else
        let p0 := getNextLevel p1.2 p1.1 (vpn1 va) false
        if p0.1 = 0 then (-1, p0.2)
        else
          let pte := p0.2.tables p0.1 (vpn0 va)
          if pte % 2 = 0 then (-1, p0.2)
          else
            let physPage := pte_to_phys pte
            let st3 := writeTable p0.2 p0.1 (vpn0 va) 0
            if free_phys ≠ 0 then (0, kfree st3 physPage) else (0, st3)

/-- `vmm_translate(vaddr) → pa | NULL` (`vmm.c:371`).  The explicit
`return NULL` branches become `none`; on success the C
`pte_to_phys(pte) | SV39_PAGE_OFFSET(va)` has disjoint operands
(multiple of 4096 versus value below 4096), so `|` is `+`. -/
def vmm_translate (st : VMState) (vaddr : Nat) : Option Nat :=
  if st.kernelPd = 0 then none
  else
    let va := vaddr % 2 ^ 64
    let p1 := getNextLevel st st.kernelPd (vpn2 va) false
    if p1.1 = 0 then none
    else
      let p0 := getNextLevel p1.2 p1.1 (vpn1 va) false
      if p0.1 = 0 then none
      else
        let pte := p0.2.tables p0.1 (vpn0 va)
        if pte % 2 = 0 then none
        else some (pte_to_phys pte + pageOffset va)

/-! ## Process subsystem (`src/kernel/proc/proc.c`) -/

/-- Process states (`proc.h`, per the spec's data model). -/
inductive PState where
  | READY
  | RUNNING
  | BLOCKED
  | TERMINATED
deriving DecidableEq

/-- The register subset saved in `RegState` (`proc.h`, per the spec's data
model: `x1`, `x5..x7`, `x10..x17`, `sp`, `sepc`, `mstatus`). -/
structure RegState where
  x1 : Nat := 0
  x5 : Nat := 0
  x6 : Nat := 0
  x7 : Nat := 0
  x10 : Nat := 0
  x11 : Nat := 0
  x12 : Nat := 0
  x13 : Nat := 0
  x14 : Nat := 0
  x15 : Nat := 0
  x16 : Nat := 0
  x17 : Nat := 0
  sp : Nat := 0
  sepc : Nat := 0
  mstatus : Nat := 0
deriving DecidableEq

/-- A process control block.  `addr` is the page address the PCB object
occupies (the value `kalloc` returned for it); it stands in for C pointer
identity, e.g. in `p == idle_proc` comparisons. -/
structure PCB where
  addr : Nat
  pid : Int
  ppid : Int
  name : String
  pstat : PState
  prior : Int
  entrypoint : Nat
  regstat : RegState
  stacktop : Nat
  brk_base : Nat
  brk_size : Nat
deriving DecidableEq

/-- The kernel's process-global state: the VM state, `next_pid`,
`idle_proc`, `current_proc`, the three lists (`ready_queue` is FIFO:
head at the front, enqueue appends; its `count` field is the list length),
and the machine interrupt-enable bit `mstatus.MIE` as toggled by
`intr_on`/`intr_off` (`riscv.h`). -/
structure Kernel where
  vm : VMState
  nextPid : Int
  idle : PCB
  current : Option PCB
  ready : List PCB
  blocked : List PCB
  zombies : List PCB
  intr : Bool

/-- `intr_on()`: `csrs mstatus, 1<<3`. -/
def intrOn (st : Kernel) : Kernel := { st with intr := true }

/-- `intr_off()`: `csrc mstatus, 1<<3`. -/
def intrOff (st : Kernel) : Kernel := { st with intr := false }

/-- The loop `for (i = 0..pages-1) vmm_unmap(base + i*PAGE_SIZE, 1)` used
by `free_pcb_resources`, the reap paths, and `proc_fork`'s rollback:
unmap `n` pages starting at page index `j`. -/
def unmapRange (vm : VMState) (base : Nat) : Nat → Nat → VMState
  | _, 0 => vm
  | j, n + 1 => unmapRange (vmm_unmap vm (base + j * PAGE_SIZE) 1).2 base (j + 1) n

/-- `free_pcb_resources(p)` (`proc.c:44`), also the inline reap sequence in
`proc_wait_and_reap` and `zombies_free`: free the kernel stack page, unmap
and free the user-heap pages, free the PCB page. -/
def free_pcb_resources (vm : VMState) (p : PCB) : VMState :=
  let vm1 := kfree vm (p.stacktop - PAGE_SIZE)
  let vm2 :=
    if p.brk_base ≠ 0 ∧ p.brk_size > 0 then
      unmapRange vm1 p.brk_base 0 ((p.brk_size + PAGE_SIZE - 1) / PAGE_SIZE)
    else vm1
  kfree vm2 p.addr

/-- `zombies_free()`'s scan (`proc.c:466`): free zombies with `ppid == 0`,
applying the `next_pid` tail-reuse decrement per reaped orphan; returns the
new VM state, `next_pid`, and the remaining zombie list. -/
def zombiesFreeScan (vm : VMState) (npid : Int) : List PCB → VMState × Int × List PCB
  | [] => (vm, npid, [])
  | p :: rest =>
    if p.ppid = 0 then
      let vm1 := free_pcb_resources vm p
      let npid1 := if p.pid = npid - 1 ∧ npid > 1 then npid - 1 else npid
      zombiesFreeScan vm1 npid1 rest
    else
      let (vm2, npid2, rest2) := zombiesFreeScan vm npid rest
      (vm2, npid2, p :: rest2)

/-- `zombies_free()` on the kernel state. -/
def zombies_free (st : Kernel) : Kernel :=
  let (vm2, npid2, zl2) := zombiesFreeScan st.vm st.nextPid st.zombies
  { st with vm := vm2, nextPid := npid2, zombies := zl2 }

/-- The pointer comparison `next == current_proc` (null-safe). -/
def isCurrentAddr (cur : Option PCB) (a : Nat) : Bool :=
  match cur with
  | some c => a == c.addr
  | none => false

/-- The pointer comparison `current_proc && current_proc->pid == pid`. -/
def isCurrentPid (cur : Option PCB) (pid : Int) : Bool :=
  match cur with
  | some c => c.pid == pid
  | none => false

/-- `schedule()` (`proc.c:680`).  The model of one scheduler entry ends at
the `switch_context` call: the code after `switch_context` runs in the
resumed task's later time slice, not in this step.  On the no-switch path
(`next == current_proc && next->pstat == RUNNING`) the function runs
`zombies_free`, re-enables interrupts and returns. -/
def schedule (st : Kernel) : Kernel :=
  let st1 := intrOff st
  match st1.ready with
  | next :: rest =>
    let st2 := { st1 with ready := rest }
    if isCurrentAddr st2.current next.addr ∧ next.pstat = PState.RUNNING then
      intrOn (zombies_free st2)
    else
      match st2.current with
      | none => { st2 with current := some { next with pstat := PState.RUNNING } }
      | some old =>
        let st3 :=
          if old.pstat = PState.RUNNING then
            if old.addr ≠ st2.idle.addr then
              { st2 with ready := st2.ready ++ [{ old with pstat := PState.READY }] }
            else
              { st2 with idle := { st2.idle with pstat := PState.READY } }
          else st2
        { st3 with current := some { next with pstat := PState.RUNNING } }
  | [] =>
    let next :=
      match st1.current with
      | some c =>
        if c.pstat = PState.RUNNING ∧ c.addr ≠ st1.idle.addr then c else st1.idle
      | none => st1.idle
    if isCurrentAddr st1.current next.addr ∧ next.pstat = PState.RUNNING then
      intrOn (zombies_free st1)
    else
      match st1.current with
      | none => { st1 with current := some { next with pstat := PState.RUNNING } }
      | some old =>
        let st3 :=
          if old.pstat = PState.RUNNING then
            if old.addr ≠ st1.idle.addr then
              { st1 with ready := st1.ready ++ [{ old with pstat := PState.READY }] }
            else
              { st1 with idle := { st1.idle with pstat := PState.READY } }
          else st1
        { st3 with current := some { next with pstat := PState.RUNNING } }

/-- `find` part of `proc_exit`'s wake-up scan: the first PCB with the given
pid on a list. -/
def findPid (l : List PCB) (pid : Int) : Option PCB :=
  match l with
  | [] => none
  | p :: rest => if p.pid = pid then some p else findPid rest pid

/-- Removal part of `proc_exit`'s wake-up scan (and of `proc_kill`'s list
surgery): drop the first PCB with the given pid. -/
def removeFirstPid (l : List PCB) (pid : Int) : List PCB :=
  match l with
  | [] => []
  | p :: rest => if p.pid = pid then rest else p :: removeFirstPid rest pid

/-- The body of `proc_exit` (`proc.c:425`) up to the `schedule()` call:
mark the current process `TERMINATED`, push it on `zombie_list`, and if
`ppid != 0` and the parent sits on `blocked_list`, remove the parent, set
it `READY` and enqueue it on `ready_queue`. -/
def proc_exit_body (st : Kernel) (p : PCB) : Kernel :=
  let pTerm := { p with pstat := PState.TERMINATED }
  let st2 := { st with current := some pTerm, zombies := pTerm :: st.zombies }
  if p.ppid ≠ 0 then
    match findPid st2.blocked p.ppid with
    | some par =>
      { st2 with
        blocked := removeFirstPid st2.blocked p.ppid,
        ready := st2.ready ++ [{ par with pstat := PState.READY }] }
    | none => st2
  else st2

/-- `proc_exit()` (`proc.c:425`).  Note the early return when
`current_proc` is null happens after `intr_off()` with no `intr_on()`.
On the normal path the function never returns (it ends in `schedule()`
followed by a `wfi` loop); the model's step ends at the context switch
inside `schedule`. -/
def proc_exit (st : Kernel) : Kernel :=
  let st1 := intrOff st
  match st1.current with
  | none => st1
  | some p => schedule (proc_exit_body st1 p)

/-- The zombie-list scan of `proc_wait_and_reap` (`proc.c:370`): find the
first zombie with `ppid == mypid`; if found, unlink it, free its stack,
heap and PCB, apply the `next_pid` decrement heuristic, and return its pid
with the updated VM state, `next_pid` and zombie list. -/
def reapScan (vm : VMState) (npid mypid : Int) :
    List PCB → Option (Int × VMState × Int × List PCB)
  | [] => none
  | p :: rest =>
    if p.ppid = mypid then
      let vm3 := free_pcb_resources vm p
      let npid1 := if p.pid = npid - 1 ∧ npid > 1 then npid - 1 else npid
      some (p.pid, vm3, npid1, rest)
    else
      match reapScan vm npid mypid rest with
      | none => none
      | some (r, vm2, npid2, rest2) => some (r, vm2, npid2, p :: rest2)

/-- One iteration of `proc_wait_and_reap()` (`proc.c:362`).  Result
`(some pid, st')` is a return; `(none, st')` means no child was found, the
caller was pushed on `blocked_list` and the step ended inside `schedule`'s
context switch (the C code loops when later resumed). -/
def proc_wait_and_reap (st : Kernel) : Option Int × Kernel :=
  match st.current with
  | none => (some (-1), st)
  | some me =>
    let st1 := intrOff st
    match reapScan st1.vm st1.nextPid me.pid st1.zombies with
    | some (childpid, vm2, npid2, zl2) =>
      (some childpid, intrOn { st1 with vm := vm2, nextPid := npid2, zombies := zl2 })
    | none =>
      let meB := { me with pstat := PState.BLOCKED }
      (none, schedule { st1 with current := some meB, blocked := meB :: st1.blocked })

/-- `proc_suspend_current()` (`proc.c:569`).  `some ()` is the early
return (no current process or current is idle); `none` means the process
was blocked and the step ended in `schedule`'s switch. -/
def proc_suspend_current (st : Kernel) : Option Unit × Kernel :=
  let st1 := intrOff st
  match st1.current with
  | none => (some (), intrOn st1)
  | some c =>
    if c.addr = st1.idle.addr then (some (), intrOn st1)
    else
      let cB := { c with pstat := PState.BLOCKED }
      (none, schedule { st1 with current := some cB, blocked := cB :: st1.blocked })

/-- List search-and-unlink used by `proc_kill` on each of the three lists:
the first PCB with the given pid, together with the list without it. -/
def findRemovePid (l : List PCB) (pid : Int) : Option (PCB × List PCB) :=
  match l with
  | [] => none
  | p :: rest =>
    if p.pid = pid then some (p, rest)
    else
      match findRemovePid rest pid with
      | none => none
      | some (q, rest2) => some (q, p :: rest2)

/-- `proc_kill(pid)` (`proc.c:592`).  `(some r, st')` is a return with
value `r`; `(none, st')` is the `pid == current->pid` branch, which calls
`proc_exit` and never returns. -/
def proc_kill (st : Kernel) (pid : Int) : Option Int × Kernel :=
  let st1 := intrOff st
  if pid < 0 then (some (-1), intrOn st1)
  else if st1.idle.pid = pid then (some (-1), intrOn st1)
  else if isCurrentPid st1.current pid then
    (none, proc_exit (intrOn st1))
  else
    match findRemovePid st1.ready pid with
    | some (p, rq) =>
      (some 0, intrOn { st1 with ready := rq, vm := free_pcb_resources st1.vm p })
    | none =>
      match findRemovePid st1.blocked pid with
      | some (p, bl) =>
        (some 0, intrOn { st1 with blocked := bl, vm := free_pcb_resources st1.vm p })
      | none =>
        match findRemovePid st1.zombies pid with
        | some (p, zl) =>
          (some 0, intrOn { st1 with zombies := zl, vm := free_pcb_resources st1.vm p })
        | none => (some (-1), intrOn st1)

/-! ### `proc_fork` -/

/-- The byte copy of the parent's kernel-stack page in `proc_fork`
(`proc.c:255`): a direct copy, since kernel stack pages are accessed
through the identity mapping. -/
def copyPhysPage (st : VMState) (dst src : Nat) : VMState :=
  { st with phys := fun x => if dst ≤ x ∧ x < dst + 4096 then st.phys (src + (x - dst)) else st.phys x }

/-- The `memcpy(child_vaddr, parent_vaddr, PAGE_SIZE)` of `proc_fork`
(`proc.c:309`): both pointers are user-heap virtual addresses, accessed
through the active Sv39 translation (the child side was just re-mapped by
`vmm_map_page`).  An access to an unmapped address would fault; the model
leaves memory unchanged in that (unreachable, under the theorems'
hypotheses) case. -/
def copyUserPage (st : VMState) (dst src : Nat) : VMState :=
  match vmm_translate st dst, vmm_translate st src with
  | some dpa, some spa => copyPhysPage st dpa spa
  | _, _ => st

/-- The user-heap deep-copy loop of `proc_fork` (`proc.c:288`): for `n`
remaining pages starting at index `j`, `vmm_map_page` the child page with
`VMM_P_RW|VMM_P_USER` (= `0x2|0x4`) and copy the parent page's bytes; on a
map failure, roll back pages `0..j-1` with `vmm_unmap(·, 1)` and report
failure. -/
def forkLoop (vm : VMState) (cbase pbase : Nat) : Nat → Nat → Bool × VMState
  | _, 0 => (true, vm)
  | j, n + 1 =>
    let r := vmm_map_page vm (cbase + j * PAGE_SIZE) (2 ||| 4)
    if r.1 ≠ 0 then (false, unmapRange r.2 cbase 0 j)
    else forkLoop (copyUserPage r.2 (cbase + j * PAGE_SIZE) (pbase + j * PAGE_SIZE)) cbase pbase (j + 1) n

/-- `proc_fork(mepc)` (`proc.c:218`). -/
def proc_fork (st : Kernel) (mepc : Nat) : Option PCB × Kernel :=
  let st1 := intrOff st
  match st1.current with
  | none => (none, intrOn st1)
  | some parent =>
    match kalloc st1.vm with
    | (none, vm1) => (none, intrOn { st1 with vm := vm1 })
    | (some pcbAddr, vm1) =>
      let childPid := st1.nextPid
      let st2 := { st1 with vm := vm1, nextPid := st1.nextPid + 1 }
      match kalloc st2.vm with
      | (none, vm2) => (none, intrOn { st2 with vm := kfree vm2 pcbAddr })
      | (some stkAddr, vm2) =>
        let vm3 := copyPhysPage vm2 stkAddr (parent.stacktop - PAGE_SIZE)
        let stacktop := stkAddr + PAGE_SIZE
        let spOff := parent.stacktop - parent.regstat.sp
        let child0 : PCB :=
          { addr := pcbAddr
            pid := childPid
            ppid := parent.pid
            name := parent.name.take 19
            pstat := PState.READY
            prior := parent.prior
            entrypoint := parent.entrypoint
            regstat := { parent.regstat with
                          sp := stacktop - spOff
                          x10 := 0
                          sepc := mepc + 4 }
            stacktop := stacktop
            brk_base := 0
            brk_size := 0 }
        if parent.brk_base ≠ 0 ∧ parent.brk_size > 0 then
          let cbase := HEAP_USER_BASE + childPid.toNat * PER_PROC_HEAP
          let pages := (parent.brk_size + PAGE_SIZE - 1) / PAGE_SIZE
          let lr := forkLoop vm3 cbase parent.brk_base 0 pages
          if lr.1 then
            let child := { child0 with brk_base := cbase, brk_size := parent.brk_size }
            (some child, intrOn { st2 with vm := lr.2, ready := st2.ready ++ [child] })
          else
            (none, intrOn { st2 with vm := kfree (kfree lr.2 stkAddr) pcbAddr })
        else
          (some child0, intrOn { st2 with vm := vm3, ready := st2.ready ++ [child0] })

/-! ## The `SYS_EXEC` branch of the trap dispatcher
(`src/kernel/trap/trap.c:168-234`) -/

/-- The register copy-back of `trap.c:189-209`: the trap frame (indices
`ra t0 t1 t2 a0 a1 a2 a3 a4 a5 a6 a7` at 0..11), `mepc`, the pre-trap
stack pointer `tf + 128` and the live `mstatus` are written into the
current process's `RegState`. -/
def syncRegsFromFrame (rs : RegState) (tf : Nat → Nat) (tfAddr epc mstatusVal : Nat) : RegState :=
  { rs with
    x1 := tf 0, x5 := tf 1, x6 := tf 2, x7 := tf 3,
    x10 := tf 4, x11 := tf 5, x12 := tf 6, x13 := tf 7,
    x14 := tf 8, x15 := tf 9, x16 := tf 10, x17 := tf 11,
    sepc := epc, sp := tfAddr + 128, mstatus := mstatusVal }

/-- Write one trap-frame slot. -/
def setFrame (tf : Nat → Nat) (i v : Nat) : Nat → Nat :=
  fun j => if j = i then v else tf j

/-- The ecall branch of `trap_handler_c` for `num == SYS_EXEC`
(`trap.c:219-234`).  `lookupResult` is the value of
`sys_exec_lookup(args)`; modelled from the spec: `sys_exec_lookup` lives
in the external syscall layer (not among the given sources) and returns
the program entry point, or `(uint64_t)-1 = 2^64 - 1` when the name lookup
fails.  Result: the kernel state after the `regstat` copy-back, the
updated trap frame, and the new `mepc`. -/
def trapHandlerExec (st : Kernel) (tf : Nat → Nat) (tfAddr epc mstatusVal lookupResult : Nat) :
    Kernel × (Nat → Nat) × Nat :=
  let st1 :=
    match st.current with
    | some cur =>
      { st with current := some { cur with regstat := syncRegsFromFrame cur.regstat tf tfAddr epc mstatusVal } }
    | none => st
  if lookupResult = 2 ^ 64 - 1 then
    (st1, setFrame tf 4 (2 ^ 64 - 1), epc + 4)
  else
    (st1, setFrame (setFrame tf 4 0) 5 0, lookupResult)

/-! ### Projection lemmas for the kernel state helpers -/

theorem intrOff_vm (st : Kernel) : (intrOff st).vm = st.vm := rfl

theorem intrOff_nextPid (st : Kernel) : (intrOff st).nextPid = st.nextPid := rfl

theorem intrOff_idle (st : Kernel) : (intrOff st).idle = st.idle := rfl

theorem intrOff_current (st : Kernel) : (intrOff st).current = st.current := rfl

theorem intrOff_ready (st : Kernel) : (intrOff st).ready = st.ready := rfl

theorem intrOff_blocked (st : Kernel) : (intrOff st).blocked = st.blocked := rfl

theorem intrOff_zombies (st : Kernel) : (intrOff st).zombies = st.zombies := rfl

theorem intrOff_intr (st : Kernel) : (intrOff st).intr = false := rfl

theorem intrOn_vm (st : Kernel) : (intrOn st).vm = st.vm := rfl

theorem intrOn_nextPid (st : Kernel) : (intrOn st).nextPid = st.nextPid := rfl

theorem intrOn_current (st : Kernel) : (intrOn st).current = st.current := rfl

theorem intrOn_ready (st : Kernel) : (intrOn st).ready = st.ready := rfl

theorem intrOn_blocked (st : Kernel) : (intrOn st).blocked = st.blocked := rfl

theorem intrOn_zombies (st : Kernel) : (intrOn st).zombies = st.zombies := rfl

theorem intrOn_intr (st : Kernel) : (intrOn st).intr = true := rfl

/-! ## Page-table walk structure and well-formedness -/

/-- Slot `i` of the root table holds a valid entry. -/
def L1V (st : VMState) (i : Nat) : Prop := st.tables st.kernelPd i % 2 = 1

/-- The level-1 table address stored in root slot `i`. -/
def l1A (st : VMState) (i : Nat) : Nat := pte_to_phys (st.tables st.kernelPd i)

/-- Root slot `i` and slot `j` of the level-1 table it points to are valid. -/
def L0V (st : VMState) (i j : Nat) : Prop :=
  L1V st i ∧ st.tables (l1A st i) j % 2 = 1

/-- The level-0 table address reached through root slot `i`, slot `j`. -/
def l0A (st : VMState) (i j : Nat) : Nat := pte_to_phys (st.tables (l1A st i) j)

/-- Both intermediate levels for `va` are present (so a walk with
`alloc = 0` reaches the leaf table). -/
def walkExists (st : VMState) (va : Nat) : Prop := L0V st (vpn2 va) (vpn1 va)

/-- The leaf table a walk for `va` ends in. -/
def leafTable (st : VMState) (va : Nat) : Nat := l0A st (vpn2 va) (vpn1 va)

/-- Well-formedness of a VM state, recording what the real allocator and
`vmm_init`'s construction guarantee: a nonnull root; nonzero intermediate
table pointers, distinct from the root, from each other across levels, and
reached from exactly one slot; and a free list of distinct, aligned,
nonzero 64-bit page addresses disjoint from all live table pages. -/
structure VMWF (st : VMState) : Prop where
  pd_ne : st.kernelPd ≠ 0
  l1_ne : ∀ i, L1V st i → l1A st i ≠ 0
  l1_ne_pd : ∀ i, L1V st i → l1A st i ≠ st.kernelPd
  l0_ne : ∀ i j, L0V st i j → l0A st i j ≠ 0
  l0_ne_pd : ∀ i j, L0V st i j → l0A st i j ≠ st.kernelPd
  l0_ne_l1 : ∀ i j k, L0V st i j → L1V st k → l0A st i j ≠ l1A st k
  l0_inj : ∀ i j i' j', i < 512 → j < 512 → i' < 512 → j' < 512 →
    L0V st i j → L0V st i' j' → l0A st i j = l0A st i' j' → i = i' ∧ j = j'
  fr_nodup : st.freeList.Nodup
  fr_al : ∀ a ∈ st.freeList, a % 4096 = 0
  fr_nz : ∀ a ∈ st.freeList, a ≠ 0
  fr_lt : ∀ a ∈ st.freeList, a < 2 ^ 64
  fr_pd : ∀ a ∈ st.freeList, a ≠ st.kernelPd
  fr_l1 : ∀ a ∈ st.freeList, ∀ i, L1V st i → l1A st i ≠ a
  fr_l0 : ∀ a ∈ st.freeList, ∀ i j, L0V st i j → l0A st i j ≠ a

/-! ### Arithmetic bridges -/

theorem vpn2_lt (va : Nat) : vpn2 va < 512 := Nat.mod_lt _ (by omega)

theorem vpn1_lt (va : Nat) : vpn1 va < 512 := Nat.mod_lt _ (by omega)

theorem vpn0_lt (va : Nat) : vpn0 va < 512 := Nat.mod_lt _ (by omega)

/-- Round-trip of an aligned 64-bit physical address through a PTE. -/
theorem pte_to_phys_make_pte (pa f : Nat) (hal : pa % 4096 = 0) (hlt : pa < 2 ^ 64) :
    pte_to_phys (make_pte pa f) = pa := by
  unfold pte_to_phys make_pte
  omega

/-- `pte_to_phys` always yields a page-aligned value. -/
theorem pte_to_phys_aligned (pte : Nat) : pte_to_phys pte % 4096 = 0 := by
  unfold pte_to_phys
  omega

/-- A PTE's V bit (bit 0) is the one packed by `make_pte`. -/
theorem make_pte_mod2 (pa f : Nat) : make_pte pa f % 2 = f % 2 := by
  unfold make_pte
  omega

/-- A PTE's R bit (bit 1) is the one packed by `make_pte`. -/
theorem make_pte_bit1 (pa f : Nat) : make_pte pa f / 2 % 2 = f % 1024 / 2 % 2 := by
  unfold make_pte
  omega

/-- A PTE's W bit (bit 2) is the one packed by `make_pte`. -/
theorem make_pte_bit2 (pa f : Nat) : make_pte pa f / 4 % 2 = f % 1024 / 4 % 2 := by
  unfold make_pte
  omega

/-- A PTE's X bit (bit 3) is the one packed by `make_pte`. -/
theorem make_pte_bit3 (pa f : Nat) : make_pte pa f / 8 % 2 = f % 1024 / 8 % 2 := by
  unfold make_pte
  omega


theorem lor_one_mod2 (f : Nat) : (f ||| 1) % 2 = 1 := by
  have h : (f ||| 1).testBit 0 = true := by
    rw [Nat.testBit_or]
    simp [Nat.testBit_one_zero]
  rw [Nat.testBit_zero, decide_eq_true_eq] at h
  exact h

theorem lor_one_div2 (f : Nat) : (f ||| 1) / 2 = f / 2 := by
  apply Nat.eq_of_testBit_eq
  intro i
  rw [Nat.testBit_div_two, Nat.testBit_div_two, Nat.testBit_or,
    Nat.testBit_two_pow_of_ne (by omega : (0 : Nat) ≠ i + 1)]
  simp

/-- The PTE flag word `vmm_map` installs:
`vmm_flags_to_pte_flags(flags | VMM_P_PRESENT)` spelled out. -/
theorem flagsToPte_or_one (f : Nat) :
    vmm_flags_to_pte_flags (f ||| 1) =
      1 + (if f / 2 % 2 = 1 then 2 + 4 + 8 else 0) + (if f / 4 % 2 = 1 then 16 else 0) +
        (64 + 128) := by
  unfold vmm_flags_to_pte_flags
  rw [lor_one_mod2, lor_one_div2]
  have h4 : (f ||| 1) / 4 = f / 4 := by
    rw [(by omega : (4 : Nat) = 2 * 2), ← Nat.div_div_eq_div_mul, ← Nat.div_div_eq_div_mul,
      lor_one_div2]
  rw [h4]
  simp

/-- The installed flag word is below 1024 and has V set. -/
theorem flagsToPte_lt (g : Nat) : vmm_flags_to_pte_flags g < 1024 := by
  unfold vmm_flags_to_pte_flags
  split <;> split <;> split <;> omega

theorem flagsToPte_or_one_mod2 (f : Nat) : vmm_flags_to_pte_flags (f ||| 1) % 2 = 1 := by
  rw [flagsToPte_or_one]
  split <;> split <;> omega

/-- Distinct aligned Sv39 addresses below `2 ^ 39` differ in some VPN slice. -/
theorem vpn_eq_of_parts (va vb : Nat) (ha : va % 4096 = 0) (hb : vb % 4096 = 0)
    (halt : va < 2 ^ 39) (hblt : vb < 2 ^ 39)
    (h2 : vpn2 va = vpn2 vb) (h1 : vpn1 va = vpn1 vb) (h0 : vpn0 va = vpn0 vb) :
    va = vb := by
  simp only [vpn2, vpn1, vpn0] at h2 h1 h0
  omega

/-! ### Read-over-write and unfolding lemmas -/

theorem writeTable_tables (st : VMState) (a i v x j : Nat) :
    (writeTable st a i v).tables x j = if x = a ∧ j = i then v else st.tables x j := rfl

theorem writeTable_freeList (st : VMState) (a i v : Nat) :
    (writeTable st a i v).freeList = st.freeList := rfl

theorem writeTable_kernelPd (st : VMState) (a i v : Nat) :
    (writeTable st a i v).kernelPd = st.kernelPd := rfl

theorem writeTable_phys (st : VMState) (a i v : Nat) :
    (writeTable st a i v).phys = st.phys := rfl

theorem zeroDataPage_tables (st : VMState) (a : Nat) :
    (zeroDataPage st a).tables = st.tables := rfl

theorem zeroDataPage_freeList (st : VMState) (a : Nat) :
    (zeroDataPage st a).freeList = st.freeList := rfl

theorem zeroDataPage_kernelPd (st : VMState) (a : Nat) :
    (zeroDataPage st a).kernelPd = st.kernelPd := rfl

theorem copyPhysPage_tables (st : VMState) (d s : Nat) :
    (copyPhysPage st d s).tables = st.tables := rfl

theorem copyPhysPage_freeList (st : VMState) (d s : Nat) :
    (copyPhysPage st d s).freeList = st.freeList := rfl

theorem copyPhysPage_kernelPd (st : VMState) (d s : Nat) :
    (copyPhysPage st d s).kernelPd = st.kernelPd := rfl

theorem zeroTablePage_tables (st : VMState) (a x j : Nat) :
    (zeroTablePage st a).tables x j = if x = a then 0 else st.tables x j := rfl

theorem zeroTablePage_freeList (st : VMState) (a : Nat) :
    (zeroTablePage st a).freeList = st.freeList := rfl

theorem zeroTablePage_kernelPd (st : VMState) (a : Nat) :
    (zeroTablePage st a).kernelPd = st.kernelPd := rfl

theorem zeroTablePage_phys (st : VMState) (a : Nat) :
    (zeroTablePage st a).phys = st.phys := rfl

theorem kfree_kernelPd (st : VMState) (a : Nat) : (kfree st a).kernelPd = st.kernelPd := rfl

theorem kfree_tables (st : VMState) (a : Nat) : (kfree st a).tables = st.tables := rfl

theorem kfree_phys (st : VMState) (a : Nat) : (kfree st a).phys = st.phys := rfl

/-- A walk step with `alloc = 0` returns the stored pointer (null when the
entry is invalid) and leaves the state unchanged. -/
theorem getNextLevel_noalloc (st : VMState) (pt idx : Nat) :
    getNextLevel st pt idx false =
      ((if st.tables pt idx % 2 = 0 then 0 else pte_to_phys (st.tables pt idx)), st) := by
  unfold getNextLevel
  by_cases h : st.tables pt idx % 2 = 0 <;> simp [h]

theorem getNextLevel_valid (st : VMState) (pt idx : Nat) (b : Bool)
    (h : st.tables pt idx % 2 = 1) :
    getNextLevel st pt idx b = (pte_to_phys (st.tables pt idx), st) := by
  unfold getNextLevel
  simp [h]

/-- `vmm_translate` only reads `kernelPd` and `tables`. -/
theorem vmm_translate_congr (st st' : VMState) (va : Nat)
    (hpd : st'.kernelPd = st.kernelPd) (ht : st'.tables = st.tables) :
    vmm_translate st' va = vmm_translate st va := by
  simp only [vmm_translate, getNextLevel_noalloc, hpd, ht]

/-- `vmm_map` when both intermediate levels already exist: it overwrites the
leaf slot and changes nothing else (`vmm.c:285-311` with both
`get_next_level` calls taking the valid-PTE path). -/
theorem vmm_map_existing (st : VMState) (va pa flags : Nat)
    (hpd : st.kernelPd ≠ 0) (hva64 : va < 2 ^ 64) (hpa64 : pa < 2 ^ 64)
    (hva : va % 4096 = 0) (hpa : pa % 4096 = 0)
    (hw : walkExists st va) (h1nz : l1A st (vpn2 va) ≠ 0) (h0nz : leafTable st va ≠ 0) :
    vmm_map st va pa flags =
      (0, writeTable st (leafTable st va) (vpn0 va)
            (make_pte pa (vmm_flags_to_pte_flags (flags ||| 1)))) := by
  obtain ⟨hv1, hv0⟩ := hw
  simp only [L1V] at hv1
  simp only [l1A] at hv0 h1nz
  simp only [leafTable, l0A, l1A] at h0nz
  simp only [vmm_map, Nat.mod_eq_of_lt hva64, Nat.mod_eq_of_lt hpa64,
    getNextLevel_valid st st.kernelPd (vpn2 va) true hv1]
  rw [getNextLevel_valid st _ (vpn1 va) true hv0]
  simp [hpd, hva, hpa, h1nz, h0nz, leafTable, l0A, l1A]

/-- A walk in a state whose leaf slot for `va` holds a valid PTE translates
to that PTE's physical page plus the page offset. -/
theorem vmm_translate_some (st : VMState) (va : Nat)
    (hpd : st.kernelPd ≠ 0) (hva64 : va < 2 ^ 64)
    (hw : walkExists st va) (h1nz : l1A st (vpn2 va) ≠ 0) (h0nz : leafTable st va ≠ 0)
    (hleaf : st.tables (leafTable st va) (vpn0 va) % 2 = 1) :
    vmm_translate st va =
      some (pte_to_phys (st.tables (leafTable st va) (vpn0 va)) + pageOffset va) := by
  obtain ⟨hv1, hv0⟩ := hw
  simp only [L1V] at hv1
  simp only [l1A] at hv0 h1nz
  simp only [leafTable, l0A, l1A] at h0nz hleaf ⊢
  simp only [vmm_translate, getNextLevel_noalloc, Nat.mod_eq_of_lt hva64]
  rw [if_neg hpd, if_neg (by omega : ¬ st.tables st.kernelPd (vpn2 va) % 2 = 0)]
  simp only [if_neg h1nz]
  rw [if_neg (by omega : ¬ st.tables (pte_to_phys (st.tables st.kernelPd (vpn2 va)))
    (vpn1 va) % 2 = 0)]
  simp only [if_neg h0nz]
  rw [if_neg (by omega : ¬ st.tables (pte_to_phys (st.tables
    (pte_to_phys (st.tables st.kernelPd (vpn2 va))) (vpn1 va))) (vpn0 va) % 2 = 0)]

/-- A walk that reaches an invalid leaf slot translates to `NULL`. -/
theorem vmm_translate_none_of_leaf_invalid (st : VMState) (va : Nat)
    (hva64 : va < 2 ^ 64)
    (hw : walkExists st va)
    (hleaf : st.tables (leafTable st va) (vpn0 va) % 2 = 0) :
    vmm_translate st va = none := by
  obtain ⟨hv1, hv0⟩ := hw
  simp only [L1V] at hv1
  simp only [l1A] at hv0
  simp only [leafTable, l0A, l1A] at hleaf
  simp only [vmm_translate, getNextLevel_noalloc, Nat.mod_eq_of_lt hva64]
  by_cases hpd : st.kernelPd = 0
  · simp [hpd]
  rw [if_neg hpd, if_neg (by omega : ¬ st.tables st.kernelPd (vpn2 va) % 2 = 0)]
  by_cases h1nz : pte_to_phys (st.tables st.kernelPd (vpn2 va)) = 0
  · simp [h1nz]
  simp only [if_neg h1nz]
  rw [if_neg (by omega : ¬ st.tables (pte_to_phys (st.tables st.kernelPd (vpn2 va)))
    (vpn1 va) % 2 = 0)]
  by_cases h0nz : pte_to_phys (st.tables (pte_to_phys (st.tables st.kernelPd (vpn2 va)))
      (vpn1 va)) = 0
  · simp [h0nz]
  simp only [if_neg h0nz]
  rw [if_pos hleaf]

/-! ### Leaf writes preserve the walk structure

A write into a leaf (level-0) table slot — what `vmm_map` over an existing
walk and `vmm_unmap` do — cannot disturb the root row or any level-1 row,
because in a well-formed state the level-0 tables are distinct from the
root and from every level-1 table. -/

theorem writeLeaf_root_row (st : VMState) (va k v j : Nat) (wf : VMWF st)
    (hwa : walkExists st va) :
    (writeTable st (leafTable st va) k v).tables st.kernelPd j =
      st.tables st.kernelPd j := by
  rw [writeTable_tables, if_neg]
  rintro ⟨h1, -⟩
  exact wf.l0_ne_pd _ _ hwa h1.symm

theorem L1V_writeLeaf (st : VMState) (va k v : Nat) (wf : VMWF st)
    (hwa : walkExists st va) (i : Nat) :
    L1V (writeTable st (leafTable st va) k v) i ↔ L1V st i := by
  unfold L1V
  rw [writeTable_kernelPd, writeLeaf_root_row st va k v i wf hwa]

theorem l1A_writeLeaf (st : VMState) (va k v : Nat) (wf : VMWF st)
    (hwa : walkExists st va) (i : Nat) :
    l1A (writeTable st (leafTable st va) k v) i = l1A st i := by
  unfold l1A
  rw [writeTable_kernelPd, writeLeaf_root_row st va k v i wf hwa]

theorem writeLeaf_l1_row (st : VMState) (va k v : Nat) (wf : VMWF st)
    (hwa : walkExists st va) (i j : Nat) (hL1 : L1V st i) :
    (writeTable st (leafTable st va) k v).tables (l1A st i) j =
      st.tables (l1A st i) j := by
  rw [writeTable_tables, if_neg]
  rintro ⟨h1, -⟩
  exact wf.l0_ne_l1 _ _ _ hwa hL1 h1.symm

theorem L0V_writeLeaf (st : VMState) (va k v : Nat) (wf : VMWF st)
    (hwa : walkExists st va) (i j : Nat) :
    L0V (writeTable st (leafTable st va) k v) i j ↔ L0V st i j := by
  unfold L0V
  rw [L1V_writeLeaf st va k v wf hwa]
  by_cases hL1 : L1V st i
  · rw [l1A_writeLeaf st va k v wf hwa, writeLeaf_l1_row st va k v wf hwa i j hL1]
  · simp [hL1]

theorem l0A_writeLeaf (st : VMState) (va k v : Nat) (wf : VMWF st)
    (hwa : walkExists st va) (i j : Nat) (hL1 : L1V st i) :
    l0A (writeTable st (leafTable st va) k v) i j = l0A st i j := by
  unfold l0A
  rw [l1A_writeLeaf st va k v wf hwa, writeLeaf_l1_row st va k v wf hwa i j hL1]

theorem walkExists_writeLeaf (st : VMState) (va k v va' : Nat) (wf : VMWF st)
    (hwa : walkExists st va) (hwa' : walkExists st va') :
    walkExists (writeTable st (leafTable st va) k v) va' :=
  (L0V_writeLeaf st va k v wf hwa _ _).mpr hwa'

theorem leafTable_writeLeaf (st : VMState) (va k v va' : Nat) (wf : VMWF st)
    (hwa : walkExists st va) (hL1 : L1V st (vpn2 va')) :
    leafTable (writeTable st (leafTable st va) k v) va' = leafTable st va' :=
  l0A_writeLeaf st va k v wf hwa _ _ hL1

/-- A leaf write in a well-formed state leaves the state well-formed. -/
theorem VMWF_writeLeaf (st : VMState) (va k v : Nat) (wf : VMWF st)
    (hwa : walkExists st va) :
    VMWF (writeTable st (leafTable st va) k v) := by
  have hL1' := L1V_writeLeaf st va k v wf hwa
  have hl1A := l1A_writeLeaf st va k v wf hwa
  have hL0' := L0V_writeLeaf st va k v wf hwa
  have hl0A : ∀ i j, L0V st i j →
      l0A (writeTable st (leafTable st va) k v) i j = l0A st i j := fun i j h =>
    l0A_writeLeaf st va k v wf hwa i j h.1
  refine ⟨?_, ?_, ?_, ?_, ?_, ?_, ?_, ?_, ?_, ?_, ?_, ?_, ?_, ?_⟩
  · rw [writeTable_kernelPd]; exact wf.pd_ne
  · intro i h
    rw [hl1A]
    exact wf.l1_ne i ((hL1' i).mp h)
  · intro i h
    rw [hl1A, writeTable_kernelPd]
    exact wf.l1_ne_pd i ((hL1' i).mp h)
  · intro i j h
    rw [hl0A i j ((hL0' i j).mp h)]
    exact wf.l0_ne i j ((hL0' i j).mp h)
  · intro i j h
    rw [hl0A i j ((hL0' i j).mp h), writeTable_kernelPd]
    exact wf.l0_ne_pd i j ((hL0' i j).mp h)
  · intro i j kk h hk
    rw [hl0A i j ((hL0' i j).mp h), hl1A]
    exact wf.l0_ne_l1 i j kk ((hL0' i j).mp h) ((hL1' kk).mp hk)
  · intro i j i' j' hi hj hi' hj' h h' heq
    rw [hl0A i j ((hL0' i j).mp h), hl0A i' j' ((hL0' i' j').mp h')] at heq
    exact wf.l0_inj i j i' j' hi hj hi' hj' ((hL0' i j).mp h) ((hL0' i' j').mp h') heq
  · rw [writeTable_freeList]; exact wf.fr_nodup
  · rw [writeTable_freeList]; exact wf.fr_al
  · rw [writeTable_freeList]; exact wf.fr_nz
  · rw [writeTable_freeList]; exact wf.fr_lt
  · rw [writeTable_freeList, writeTable_kernelPd]; exact wf.fr_pd
  · rw [writeTable_freeList]
    intro a ha i h
    rw [hl1A]
    exact wf.fr_l1 a ha i ((hL1' i).mp h)
  · rw [writeTable_freeList]
    intro a ha i j h
    rw [hl0A i j ((hL0' i j).mp h)]
    exact wf.fr_l0 a ha i j ((hL0' i j).mp h)

/-- Frame rule: a leaf write for `va` does not change the translation of
any other aligned Sv39 page `va'`. -/
theorem vmm_translate_writeLeaf_frame (st : VMState) (va va' v : Nat) (wf : VMWF st)
    (hwa : walkExists st va) (hva : va % 4096 = 0) (hva39 : va < 2 ^ 39)
    (hva' : va' % 4096 = 0) (hva39' : va' < 2 ^ 39) (hne : va' ≠ va) :
    vmm_translate (writeTable st (leafTable st va) (vpn0 va) v) va' =
      vmm_translate st va' := by
  have hmod : va' % 2 ^ 64 = va' := Nat.mod_eq_of_lt (by omega)
  have hpdrow : ∀ j, (writeTable st (leafTable st va) (vpn0 va) v).tables st.kernelPd j =
      st.tables st.kernelPd j := fun j => writeLeaf_root_row st va (vpn0 va) v j wf hwa
  simp only [vmm_translate, getNextLevel_noalloc, writeTable_kernelPd, hmod, hpdrow]
  by_cases c1 : st.tables st.kernelPd (vpn2 va') % 2 = 0
  · simp [c1]
  simp only [if_neg c1]
  have hL1 : L1V st (vpn2 va') := by unfold L1V; omega
  by_cases c2 : pte_to_phys (st.tables st.kernelPd (vpn2 va')) = 0
  · simp [c2]
  simp only [if_neg c2]
  have hrow1 := writeLeaf_l1_row st va (vpn0 va) v wf hwa (vpn2 va') (vpn1 va') hL1
  simp only [l1A] at hrow1
  rw [hrow1]
  by_cases c3 : st.tables (pte_to_phys (st.tables st.kernelPd (vpn2 va'))) (vpn1 va') % 2 = 0
  · simp [c3]
  simp only [if_neg c3]
  have hL0 : L0V st (vpn2 va') (vpn1 va') := ⟨hL1, by unfold l1A; omega⟩
  by_cases c4 : pte_to_phys (st.tables (pte_to_phys (st.tables st.kernelPd (vpn2 va')))
      (vpn1 va')) = 0
  · simp [c4]
  simp only [if_neg c4]
  have hleafrow : (writeTable st (leafTable st va) (vpn0 va) v).tables
      (pte_to_phys (st.tables (pte_to_phys (st.tables st.kernelPd (vpn2 va'))) (vpn1 va')))
      (vpn0 va') =
      st.tables (pte_to_phys (st.tables (pte_to_phys (st.tables st.kernelPd (vpn2 va')))
        (vpn1 va'))) (vpn0 va') := by
    rw [writeTable_tables, if_neg]
    rintro ⟨hT, hk⟩
    have hT' : l0A st (vpn2 va') (vpn1 va') = l0A st (vpn2 va) (vpn1 va) := hT
    have hij := wf.l0_inj (vpn2 va') (vpn1 va') (vpn2 va) (vpn1 va)
      (vpn2_lt va') (vpn1_lt va') (vpn2_lt va) (vpn1_lt va) hL0 hwa hT'
    exact hne (vpn_eq_of_parts va' va hva' hva hva39' hva39 hij.1 hij.2 hk)
  rw [hleafrow]

/-- A valid PTE written into `va`'s leaf slot is what `vmm_translate va`
then reads back. -/
theorem vmm_translate_writeLeaf_self (st : VMState) (va v : Nat) (wf : VMWF st)
    (hwa : walkExists st va) (hva64 : va < 2 ^ 64) (hv : v % 2 = 1) :
    vmm_translate (writeTable st (leafTable st va) (vpn0 va) v) va =
      some (pte_to_phys v + pageOffset va) := by
  set st' := writeTable st (leafTable st va) (vpn0 va) v with hst'
  have hwa' : walkExists st' va := walkExists_writeLeaf st va (vpn0 va) v va wf hwa hwa
  have hLT : leafTable st' va = leafTable st va :=
    leafTable_writeLeaf st va (vpn0 va) v va wf hwa hwa.1
  have hleaf : st'.tables (leafTable st' va) (vpn0 va) = v := by
    rw [hLT, hst', writeTable_tables, if_pos ⟨rfl, rfl⟩]
  have h1nz : l1A st' (vpn2 va) ≠ 0 := by
    rw [hst', l1A_writeLeaf st va (vpn0 va) v wf hwa]
    exact wf.l1_ne _ hwa.1
  have h0nz : leafTable st' va ≠ 0 := by
    rw [hLT]
    exact wf.l0_ne _ _ hwa
  have := vmm_translate_some st' va (by rw [hst', writeTable_kernelPd]; exact wf.pd_ne)
    hva64 hwa' h1nz h0nz (by rw [hleaf]; exact hv)
  rw [this, hleaf]

/-! ### The `vmm_map` success specification

Covers all three shapes of a successful `vmm_map`: both intermediate
levels present, level 1 present with a fresh level 0, and both levels
freshly allocated. -/

theorem vmm_map_success_spec (st : VMState) (va pa flags : Nat) (wf : VMWF st)
    (hva : va % 4096 = 0) (hpa : pa % 4096 = 0) (hva64 : va < 2 ^ 64) (hpa64 : pa < 2 ^ 64)
    (st' : VMState) (hmap : vmm_map st va pa flags = (0, st')) :
    ∃ T, T ≠ 0 ∧
      st'.tables T (vpn0 va) = make_pte pa (vmm_flags_to_pte_flags (flags ||| 1)) ∧
      vmm_translate st' va = some pa := by
  have hoff : pageOffset va = 0 := by
    unfold pageOffset
    omega
  have hleafv : make_pte pa (vmm_flags_to_pte_flags (flags ||| 1)) % 2 = 1 := by
    rw [make_pte_mod2]
    have := flagsToPte_or_one_mod2 flags
    have := flagsToPte_lt (flags ||| 1)
    omega
  have hptp : pte_to_phys (make_pte pa (vmm_flags_to_pte_flags (flags ||| 1))) = pa :=
    pte_to_phys_make_pte pa _ hpa hpa64
  rw [vmm_map] at hmap
  rw [if_neg wf.pd_ne] at hmap
  simp only [Nat.mod_eq_of_lt hva64, Nat.mod_eq_of_lt hpa64] at hmap
  rw [if_neg (by omega : ¬ (va % 4096 ≠ 0 ∨ pa % 4096 ≠ 0))] at hmap
  by_cases c1 : st.tables st.kernelPd (vpn2 va) % 2 = 0
  · -- root slot invalid: a fresh level-1 (and then level-0) table is allocated
    rcases hfl : st.freeList with _ | ⟨a, rest⟩
    · rw [show getNextLevel st st.kernelPd (vpn2 va) true = (0, st) by
        unfold getNextLevel
        rw [if_pos c1]
        simp only [kalloc, hfl]
        simp] at hmap
      simp at hmap
    have hamem : a ∈ st.freeList := by
      rw [hfl]; exact List.mem_cons_self a rest
    have hanz : a ≠ 0 := wf.fr_nz a hamem
    have hapd : a ≠ st.kernelPd := wf.fr_pd a hamem
    have haal : a % 4096 = 0 := wf.fr_al a hamem
    have halt : a < 2 ^ 64 := wf.fr_lt a hamem
    set stA := writeTable (zeroTablePage { st with freeList := rest } a) st.kernelPd (vpn2 va)
      (make_pte a 1) with hstA
    rw [show getNextLevel st st.kernelPd (vpn2 va) true = (a, stA) by
      unfold getNextLevel
      rw [if_pos c1]
      simp only [kalloc, hfl]
      simp] at hmap
    rw [if_neg hanz] at hmap
    -- the freshly zeroed level-1 table has an invalid slot at `vpn1 va`
    have hslot1 : stA.tables a (vpn1 va) = 0 := by
      rw [hstA, writeTable_tables, if_neg (by rintro ⟨h, -⟩; exact hapd h),
        zeroTablePage_tables, if_pos rfl]
    rcases hrest : rest with _ | ⟨b, rest2⟩
    · have hflA : stA.freeList = [] := by
        rw [hstA, writeTable_freeList, zeroTablePage_freeList, hrest]
      rw [show getNextLevel stA a (vpn1 va) true = (0, stA) by
        unfold getNextLevel
        rw [hslot1]
        simp only [kalloc, hflA]
        simp] at hmap
      simp at hmap
    have hbmem : b ∈ st.freeList := by
      rw [hfl, hrest]
      exact List.mem_cons_of_mem a (List.mem_cons_self b rest2)
    have hbnz : b ≠ 0 := wf.fr_nz b hbmem
    have hbpd : b ≠ st.kernelPd := wf.fr_pd b hbmem
    have hbal : b % 4096 = 0 := wf.fr_al b hbmem
    have hblt : b < 2 ^ 64 := wf.fr_lt b hbmem
    have hab : a ≠ b := by
      intro h
      have := wf.fr_nodup
      rw [hfl, hrest, h] at this
      simp at this
    set stB := writeTable (zeroTablePage { stA with freeList := rest2 } b) a (vpn1 va)
      (make_pte b 1) with hstB
    have hflA : stA.freeList = b :: rest2 := by
      rw [hstA, writeTable_freeList, zeroTablePage_freeList, hrest]
    rw [show getNextLevel stA a (vpn1 va) true = (b, stB) by
      unfold getNextLevel
      rw [hslot1]
      simp only [kalloc, hflA]
      simp] at hmap
    rw [if_neg hbnz] at hmap
    simp only [Prod.mk.injEq, true_and] at hmap
    -- the final state and its three walk reads
    have hr2 : st'.tables st.kernelPd (vpn2 va) = make_pte a 1 := by
      rw [← hmap, writeTable_tables, if_neg (by rintro ⟨h, -⟩; exact hbpd h.symm), hstB,
        writeTable_tables, if_neg (by rintro ⟨h, -⟩; exact hapd h.symm),
        zeroTablePage_tables, if_neg (Ne.symm hbpd), hstA, writeTable_tables,
        if_pos ⟨rfl, rfl⟩]
    have hr1 : st'.tables a (vpn1 va) = make_pte b 1 := by
      rw [← hmap, writeTable_tables, if_neg (by rintro ⟨h, -⟩; exact hab h), hstB,
        writeTable_tables, if_pos ⟨rfl, rfl⟩]
    have hr0 : st'.tables b (vpn0 va) =
        make_pte pa (vmm_flags_to_pte_flags (flags ||| 1)) := by
      rw [← hmap, writeTable_tables, if_pos ⟨rfl, rfl⟩]
    have hpd' : st'.kernelPd = st.kernelPd := by
      rw [← hmap, writeTable_kernelPd, hstB, writeTable_kernelPd, zeroTablePage_kernelPd,
        hstA, writeTable_kernelPd, zeroTablePage_kernelPd]
    refine ⟨b, hbnz, hr0, ?_⟩
    simp only [vmm_translate, getNextLevel_noalloc, hpd', Nat.mod_eq_of_lt hva64]
    rw [if_neg wf.pd_ne, hr2,
      if_neg (by rw [make_pte_mod2]; omega : ¬ make_pte a 1 % 2 = 0),
      pte_to_phys_make_pte a 1 haal halt, if_neg hanz, hr1,
      if_neg (by rw [make_pte_mod2]; omega : ¬ make_pte b 1 % 2 = 0),
      pte_to_phys_make_pte b 1 hbal hblt, if_neg hbnz, hr0,
      if_neg (by omega : ¬ make_pte pa (vmm_flags_to_pte_flags (flags ||| 1)) % 2 = 0),
      hptp, hoff]
    rfl
  · -- root slot valid
    have hL1 : L1V st (vpn2 va) := by
      unfold L1V
      omega
    rw [getNextLevel_valid st st.kernelPd (vpn2 va) true (by omega)] at hmap
    by_cases cA1 : pte_to_phys (st.tables st.kernelPd (vpn2 va)) = 0
    · rw [if_pos cA1] at hmap
      simp at hmap
    rw [if_neg cA1] at hmap
    by_cases c3 : st.tables (pte_to_phys (st.tables st.kernelPd (vpn2 va))) (vpn1 va) % 2 = 0
    · -- level-1 slot invalid: a fresh level-0 table is allocated
      rcases hfl : st.freeList with _ | ⟨a, rest⟩
      · rw [show getNextLevel st (pte_to_phys (st.tables st.kernelPd (vpn2 va))) (vpn1 va) true
            = (0, st) by
          unfold getNextLevel
          rw [if_pos c3]
          simp only [kalloc, hfl]
          simp] at hmap
        simp at hmap
      have hamem : a ∈ st.freeList := by
        rw [hfl]; exact List.mem_cons_self a rest
      have hanz : a ≠ 0 := wf.fr_nz a hamem
      have hapd : a ≠ st.kernelPd := wf.fr_pd a hamem
      have haal : a % 4096 = 0 := wf.fr_al a hamem
      have halt : a < 2 ^ 64 := wf.fr_lt a hamem
      have haA1 : l1A st (vpn2 va) ≠ a := wf.fr_l1 a hamem (vpn2 va) hL1
      simp only [l1A] at haA1
      set stA := writeTable (zeroTablePage { st with freeList := rest } a)
        (pte_to_phys (st.tables st.kernelPd (vpn2 va))) (vpn1 va) (make_pte a 1) with hstA
      rw [show getNextLevel st (pte_to_phys (st.tables st.kernelPd (vpn2 va))) (vpn1 va) true
          = (a, stA) by
        unfold getNextLevel
        rw [if_pos c3]
        simp only [kalloc, hfl]
        simp] at hmap
      rw [if_neg hanz] at hmap
      simp only [Prod.mk.injEq, true_and] at hmap
      have hr2 : st'.tables st.kernelPd (vpn2 va) = st.tables st.kernelPd (vpn2 va) := by
        rw [← hmap, writeTable_tables, if_neg (by rintro ⟨h, -⟩; exact hapd h.symm), hstA,
          writeTable_tables, if_neg (by rintro ⟨h, -⟩; exact wf.l1_ne_pd (vpn2 va) hL1 h.symm),
          zeroTablePage_tables, if_neg (Ne.symm hapd)]
      have hr1 : st'.tables (pte_to_phys (st.tables st.kernelPd (vpn2 va))) (vpn1 va) =
          make_pte a 1 := by
        rw [← hmap, writeTable_tables, if_neg (by rintro ⟨h, -⟩; exact haA1 h), hstA,
          writeTable_tables, if_pos ⟨rfl, rfl⟩]
      have hr0 : st'.tables a (vpn0 va) =
          make_pte pa (vmm_flags_to_pte_flags (flags ||| 1)) := by
        rw [← hmap, writeTable_tables, if_pos ⟨rfl, rfl⟩]
      have hpd' : st'.kernelPd = st.kernelPd := by
        rw [← hmap, writeTable_kernelPd, hstA, writeTable_kernelPd, zeroTablePage_kernelPd]
      refine ⟨a, hanz, hr0, ?_⟩
      simp only [vmm_translate, getNextLevel_noalloc, hpd', Nat.mod_eq_of_lt hva64]
      rw [if_neg wf.pd_ne, hr2, if_neg (by omega : ¬ st.tables st.kernelPd (vpn2 va) % 2 = 0),
        if_neg cA1, hr1,
        if_neg (by rw [make_pte_mod2]; omega : ¬ make_pte a 1 % 2 = 0),
        pte_to_phys_make_pte a 1 haal halt, if_neg hanz, hr0,
        if_neg (by omega : ¬ make_pte pa (vmm_flags_to_pte_flags (flags ||| 1)) % 2 = 0),
        hptp, hoff]
      rfl
    · -- both levels valid: `vmm_map_existing` territory
      have hwa : walkExists st va := ⟨hL1, by
        show st.tables (l1A st (vpn2 va)) (vpn1 va) % 2 = 1
        simp only [l1A]
        omega⟩
      dsimp only at hmap
      rw [getNextLevel_valid st (pte_to_phys (st.tables st.kernelPd (vpn2 va))) (vpn1 va) true
        (by omega)] at hmap
      by_cases cT : pte_to_phys (st.tables (pte_to_phys (st.tables st.kernelPd (vpn2 va)))
          (vpn1 va)) = 0
      · rw [if_pos cT] at hmap
        simp at hmap
      rw [if_neg cT] at hmap
      simp only [Prod.mk.injEq, true_and] at hmap
      have hTnz : leafTable st va ≠ 0 := by
        simp only [leafTable, l0A, l1A]
        exact cT
      refine ⟨leafTable st va, hTnz, ?_, ?_⟩
      · rw [← hmap, writeTable_tables]
        simp [leafTable, l0A, l1A]
      · have := vmm_translate_writeLeaf_self st va
          (make_pte pa (vmm_flags_to_pte_flags (flags ||| 1))) wf hwa hva64 hleafv
        simp only [leafTable, l0A, l1A] at this
        rw [← hmap, this, hptp, hoff]
        rfl

/-- `vmm_unmap` over an existing walk with a valid leaf: clears the leaf
slot and, when `free_phys` is nonzero, pushes the leaf's physical page onto
the free list (`vmm.c:329-367`). -/
theorem vmm_unmap_existing (st : VMState) (va : Nat) (fp : Int)
    (hpd : st.kernelPd ≠ 0) (hva64 : va < 2 ^ 64) (hal : va % 4096 = 0)
    (hwa : walkExists st va) (h1nz : l1A st (vpn2 va) ≠ 0) (h0nz : leafTable st va ≠ 0)
    (hleaf : st.tables (leafTable st va) (vpn0 va) % 2 = 1) :
    vmm_unmap st va fp =
      (0, if fp ≠ 0 then
            kfree (writeTable st (leafTable st va) (vpn0 va) 0)
              (pte_to_phys (st.tables (leafTable st va) (vpn0 va)))
          else writeTable st (leafTable st va) (vpn0 va) 0) := by
  obtain ⟨hv1, hv0⟩ := hwa
  simp only [L1V] at hv1
  simp only [l1A] at hv0 h1nz
  simp only [leafTable, l0A, l1A] at h0nz hleaf ⊢
  simp only [vmm_unmap, getNextLevel_noalloc, Nat.mod_eq_of_lt hva64]
  rw [if_neg hpd, if_neg (by omega : ¬ va % 4096 ≠ 0),
    if_neg (by omega : ¬ st.tables st.kernelPd (vpn2 va) % 2 = 0)]
  rw [if_neg h1nz,
    if_neg (by omega : ¬ st.tables (pte_to_phys (st.tables st.kernelPd (vpn2 va)))
      (vpn1 va) % 2 = 0)]
  rw [if_neg h0nz,
    if_neg (by omega : ¬ st.tables (pte_to_phys (st.tables (pte_to_phys
      (st.tables st.kernelPd (vpn2 va))) (vpn1 va))) (vpn0 va) % 2 = 0)]
  by_cases hfp : fp ≠ 0
  · rw [if_pos hfp, if_pos hfp]
  · rw [if_neg hfp, if_neg hfp]

/-! ## Claim C1 -/

/-- **C1.** For every 4 KiB-aligned virtual address `va` and 4 KiB-aligned
physical address `pa`, if `vmm_map(va, pa, f)` succeeds (returns 0) and no
`vmm_unmap` of `va` intervenes, then `vmm_translate(va)` returns `pa` (the
page offset of an aligned `va` being 0).  Formalised as: in a well-formed
VM state, a successful `vmm_map` immediately followed by `vmm_translate`
of the same `va` yields `some pa`. -/
theorem c1_map_then_translate (st : VMState) (va pa flags : Nat) (st' : VMState)
    (wf : VMWF st) (hva : va % 4096 = 0) (hpa : pa % 4096 = 0)
    (hva64 : va < 2 ^ 64) (hpa64 : pa < 2 ^ 64)
    (hmap : vmm_map st va pa flags = (0, st')) :
    vmm_translate st' va = some pa := by
  obtain ⟨T, -, -, h⟩ := vmm_map_success_spec st va pa flags wf hva hpa hva64 hpa64 st' hmap
  exact h

/-- A small concrete well-formed VM state: a zeroed root table at `0x1000`
and two free pages. -/
def st0 : VMState where
  kernelPd := 4096
  tables := fun _ _ => 0
  phys := fun _ => 0
  freeList := [8192, 12288]

theorem st0_wf : VMWF st0 := by
  have hnoL1 : ∀ i, ¬ L1V st0 i := by
    intro i h
    simp [L1V, st0] at h
  refine ⟨by decide, ?_, ?_, ?_, ?_, ?_, ?_, by decide, by decide, by decide, by decide,
    by decide, ?_, ?_⟩
  · intro i h; exact absurd h (hnoL1 i)
  · intro i h; exact absurd h (hnoL1 i)
  · intro i j h; exact absurd h.1 (hnoL1 i)
  · intro i j h; exact absurd h.1 (hnoL1 i)
  · intro i j k h; exact absurd h.1 (hnoL1 i)
  · intro i j i' j' _ _ _ _ h; exact absurd h.1 (hnoL1 i)
  · intro a _ i h; exact absurd h (hnoL1 i)
  · intro a _ i j h; exact absurd h.1 (hnoL1 i)

/-- Witness for C1 at a concrete input: mapping `0x80400000 → 0x80001000`
with `VMM_P_RW|VMM_P_USER` in `st0` succeeds, and translation returns the
mapped page. -/
theorem c1_map_then_translate_witness :
    vmm_translate (vmm_map st0 0x80400000 0x80001000 6).2 0x80400000 =
      some 0x80001000 := by
  have h1 : (vmm_map st0 0x80400000 0x80001000 6).1 = 0 := by decide
  exact c1_map_then_translate st0 0x80400000 0x80001000 6 _ st0_wf (by decide) (by decide)
    (by decide) (by decide) (Prod.ext h1 rfl)

/-! ## Claim C5 -/

/-- The failure condition of `vmm_unmap(va, ·)`, read off the walk exactly
as the code tests it: root unset, `va` unaligned, an intermediate level
missing (a null next-level pointer), or the leaf PTE not valid. -/
def unmapFails (st : VMState) (va : Nat) : Prop :=
  st.kernelPd = 0 ∨ va % 4096 ≠ 0 ∨
    (getNextLevel st st.kernelPd (vpn2 va) false).1 = 0 ∨
    (getNextLevel st (getNextLevel st st.kernelPd (vpn2 va) false).1 (vpn1 va) false).1 = 0 ∨
    st.tables ((getNextLevel st (getNextLevel st st.kernelPd (vpn2 va) false).1
      (vpn1 va) false).1) (vpn0 va) % 2 = 0

/-- **C5.** `vmm_unmap(va, free_phys)` returns −1 exactly when the root
table is unset, `va` is not 4 KiB aligned, an intermediate level is
missing, or the leaf PTE is not valid; on success it clears the leaf PTE
(so a subsequent `vmm_translate(va)` returns null) and frees the
underlying physical page if and only if `free_phys` is nonzero. -/
theorem c5_unmap_spec (st : VMState) (va : Nat) (fp : Int)
    (wf : VMWF st) (hva64 : va < 2 ^ 64) :
    ((vmm_unmap st va fp).1 = -1 ↔ unmapFails st va) ∧
    ((vmm_unmap st va fp).1 = 0 →
      vmm_translate (vmm_unmap st va fp).2 va = none ∧
      (fp ≠ 0 → ∃ p, vmm_translate st va = some p ∧
        (vmm_unmap st va fp).2.freeList = p :: st.freeList) ∧
      (fp = 0 → (vmm_unmap st va fp).2.freeList = st.freeList)) := by
  by_cases hpd : st.kernelPd = 0
  · constructor
    · unfold vmm_unmap unmapFails
      simp [hpd]
    · unfold vmm_unmap
      intro h
      rw [if_pos hpd] at h
      simp at h
  by_cases hal : va % 4096 = 0
  swap
  · constructor
    · unfold vmm_unmap unmapFails
      rw [Nat.mod_eq_of_lt hva64]
      simp [hpd, hal]
    · unfold vmm_unmap
      intro h
      rw [if_neg hpd, Nat.mod_eq_of_lt hva64, if_pos (by omega : va % 4096 ≠ 0)] at h
      simp at h
  by_cases c1 : st.tables st.kernelPd (vpn2 va) % 2 = 0
  · have hz : (getNextLevel st st.kernelPd (vpn2 va) false).1 = 0 := by
      rw [getNextLevel_noalloc, if_pos c1]
    constructor
    · unfold vmm_unmap unmapFails
      rw [Nat.mod_eq_of_lt hva64]
      simp [hpd, hal, hz]
    · unfold vmm_unmap
      intro h
      rw [if_neg hpd, Nat.mod_eq_of_lt hva64, if_neg (by omega : ¬ va % 4096 ≠ 0),
        if_pos hz] at h
      simp at h
  have hv1 : st.tables st.kernelPd (vpn2 va) % 2 = 1 := by omega
  have hg1 : (getNextLevel st st.kernelPd (vpn2 va) false).1 =
      pte_to_phys (st.tables st.kernelPd (vpn2 va)) := by
    rw [getNextLevel_noalloc, if_neg c1]
  by_cases h1z : pte_to_phys (st.tables st.kernelPd (vpn2 va)) = 0
  · constructor
    · unfold vmm_unmap unmapFails
      rw [Nat.mod_eq_of_lt hva64]
      simp [hpd, hal, getNextLevel_noalloc, c1, h1z]
    · unfold vmm_unmap
      intro h
      rw [if_neg hpd, Nat.mod_eq_of_lt hva64, if_neg (by omega : ¬ va % 4096 ≠ 0),
        getNextLevel_noalloc, if_neg c1] at h
      rw [if_pos h1z] at h
      simp at h
  by_cases c3 : st.tables (pte_to_phys (st.tables st.kernelPd (vpn2 va))) (vpn1 va) % 2 = 0
  · constructor
    · unfold vmm_unmap unmapFails
      rw [Nat.mod_eq_of_lt hva64]
      simp [hpd, hal, getNextLevel_noalloc, c1, h1z, c3]
    · unfold vmm_unmap
      intro h
      rw [if_neg hpd, Nat.mod_eq_of_lt hva64, if_neg (by omega : ¬ va % 4096 ≠ 0),
        getNextLevel_noalloc, if_neg c1, if_neg h1z, getNextLevel_noalloc, if_pos c3] at h
      rw [if_pos rfl] at h
      simp at h
  have hv0 : st.tables (pte_to_phys (st.tables st.kernelPd (vpn2 va))) (vpn1 va) % 2 = 1 := by
    omega
  have hwa : walkExists st va := ⟨hv1, hv0⟩
  have h1nz : l1A st (vpn2 va) ≠ 0 := by
    simp only [l1A]
    exact h1z
  by_cases h0z : pte_to_phys (st.tables (pte_to_phys (st.tables st.kernelPd (vpn2 va)))
      (vpn1 va)) = 0
  · constructor
    · unfold vmm_unmap unmapFails
      rw [Nat.mod_eq_of_lt hva64]
      simp [hpd, hal, getNextLevel_noalloc, c1, h1z, c3, h0z]
    · unfold vmm_unmap
      intro h
      rw [if_neg hpd, Nat.mod_eq_of_lt hva64, if_neg (by omega : ¬ va % 4096 ≠ 0),
        getNextLevel_noalloc, if_neg c1, if_neg h1z, getNextLevel_noalloc, if_neg c3,
        if_pos h0z] at h
      simp at h
  have h0nz : leafTable st va ≠ 0 := by
    simp only [leafTable, l0A, l1A]
    exact h0z
  by_cases cL : st.tables (pte_to_phys (st.tables (pte_to_phys (st.tables st.kernelPd
      (vpn2 va))) (vpn1 va))) (vpn0 va) % 2 = 0
  · constructor
    · unfold vmm_unmap unmapFails
      rw [Nat.mod_eq_of_lt hva64]
      simp [hpd, hal, getNextLevel_noalloc, c1, h1z, c3, h0z, cL]
    · unfold vmm_unmap
      intro h
      rw [if_neg hpd, Nat.mod_eq_of_lt hva64, if_neg (by omega : ¬ va % 4096 ≠ 0),
        getNextLevel_noalloc, if_neg c1, if_neg h1z, getNextLevel_noalloc, if_neg c3,
        if_neg h0z, if_pos cL] at h
      simp at h
  -- success case
  have hleaf : st.tables (leafTable st va) (vpn0 va) % 2 = 1 := by
    simp only [leafTable, l0A, l1A]
    omega
  have hun := vmm_unmap_existing st va fp hpd hva64 hal hwa h1nz h0nz hleaf
  constructor
  · rw [hun]
    unfold unmapFails
    simp only [getNextLevel_noalloc, if_neg c1, if_neg h1z, if_neg c3, if_neg h0z]
    constructor
    · intro h
      simp at h
    · intro h
      rcases h with h | h | h | h | h
      · exact absurd h hpd
      · exact absurd hal h
      · exact absurd h h1z
      · exact absurd h h0z
      · exact absurd h (by simp only [leafTable, l0A, l1A] at hleaf; omega)
  intro _
  have htrans : vmm_translate (writeTable st (leafTable st va) (vpn0 va) 0) va = none := by
    have hwa' := walkExists_writeLeaf st va (vpn0 va) 0 va wf hwa hwa
    have hLT := leafTable_writeLeaf st va (vpn0 va) 0 va wf hwa hwa.1
    apply vmm_translate_none_of_leaf_invalid _ va hva64 hwa'
    rw [hLT, writeTable_tables, if_pos ⟨rfl, rfl⟩]
  refine ⟨?_, ?_, ?_⟩
  · rw [hun]
    dsimp only
    by_cases hfp : fp ≠ 0
    · rw [if_pos hfp,
        vmm_translate_congr (writeTable st (leafTable st va) (vpn0 va) 0)
          (kfree (writeTable st (leafTable st va) (vpn0 va) 0)
            (pte_to_phys (st.tables (leafTable st va) (vpn0 va)))) va
          (kfree_kernelPd _ _) (kfree_tables _ _)]
      exact htrans
    · rw [if_neg hfp]
      exact htrans
  · intro hfp
    refine ⟨pte_to_phys (st.tables (leafTable st va) (vpn0 va)), ?_, ?_⟩
    · have := vmm_translate_some st va hpd hva64 hwa h1nz h0nz hleaf
      rw [this]
      unfold pageOffset
      congr 1
      omega
    · rw [hun]
      dsimp only
      rw [if_pos hfp,
        show (kfree (writeTable st (leafTable st va) (vpn0 va) 0)
          (pte_to_phys (st.tables (leafTable st va) (vpn0 va)))).freeList =
          pte_to_phys (st.tables (leafTable st va) (vpn0 va)) ::
            (writeTable st (leafTable st va) (vpn0 va) 0).freeList from rfl,
        writeTable_freeList]
  · intro hfp
    rw [hun]
    dsimp only
    rw [if_neg (by omega : ¬ fp ≠ 0), writeTable_freeList]

/-- Witness for C5 at a concrete input. -/
theorem c5_unmap_spec_witness :
    (((vmm_unmap st0 0x80400000 1).1 = -1 ↔ unmapFails st0 0x80400000) ∧
      ((vmm_unmap st0 0x80400000 1).1 = 0 →
        vmm_translate (vmm_unmap st0 0x80400000 1).2 0x80400000 = none ∧
        ((1 : Int) ≠ 0 → ∃ p, vmm_translate st0 0x80400000 = some p ∧
          (vmm_unmap st0 0x80400000 1).2.freeList = p :: st0.freeList) ∧
        ((1 : Int) = 0 → (vmm_unmap st0 0x80400000 1).2.freeList = st0.freeList))) :=
  c5_unmap_spec st0 0x80400000 1 st0_wf (by decide)

/-- Inversion of a successful translation: the walk exists, the leaf is
valid, and the result is the leaf's page plus the offset. -/
theorem vmm_translate_some_inv (st : VMState) (va p : Nat) (hva64 : va < 2 ^ 64)
    (h : vmm_translate st va = some p) :
    st.kernelPd ≠ 0 ∧ walkExists st va ∧ l1A st (vpn2 va) ≠ 0 ∧ leafTable st va ≠ 0 ∧
      st.tables (leafTable st va) (vpn0 va) % 2 = 1 ∧
      p = pte_to_phys (st.tables (leafTable st va) (vpn0 va)) + pageOffset va := by
  simp only [vmm_translate, getNextLevel_noalloc, Nat.mod_eq_of_lt hva64] at h
  by_cases hpd : st.kernelPd = 0
  · rw [if_pos hpd] at h
    exact absurd h (by simp)
  rw [if_neg hpd] at h
  by_cases c1 : st.tables st.kernelPd (vpn2 va) % 2 = 0
  · rw [if_pos (by rw [if_pos c1] : (if st.tables st.kernelPd (vpn2 va) % 2 = 0 then 0
      else pte_to_phys (st.tables st.kernelPd (vpn2 va))) = 0)] at h
    exact absurd h (by simp)
  rw [if_neg c1] at h
  by_cases h1z : pte_to_phys (st.tables st.kernelPd (vpn2 va)) = 0
  · rw [if_pos h1z] at h
    exact absurd h (by simp)
  rw [if_neg h1z] at h
  by_cases c3 : st.tables (pte_to_phys (st.tables st.kernelPd (vpn2 va))) (vpn1 va) % 2 = 0
  · rw [if_pos (by rw [if_pos c3] : (if st.tables (pte_to_phys (st.tables st.kernelPd
      (vpn2 va))) (vpn1 va) % 2 = 0 then 0 else pte_to_phys (st.tables (pte_to_phys
      (st.tables st.kernelPd (vpn2 va))) (vpn1 va))) = 0)] at h
    exact absurd h (by simp)
  rw [if_neg c3] at h
  by_cases h0z : pte_to_phys (st.tables (pte_to_phys (st.tables st.kernelPd (vpn2 va)))
      (vpn1 va)) = 0
  · rw [if_pos h0z] at h
    exact absurd h (by simp)
  rw [if_neg h0z] at h
  by_cases cL : st.tables (pte_to_phys (st.tables (pte_to_phys (st.tables st.kernelPd
      (vpn2 va))) (vpn1 va))) (vpn0 va) % 2 = 0
  · rw [if_pos cL] at h
    exact absurd h (by simp)
  rw [if_neg cL] at h
  rw [Option.some.injEq] at h
  have hcL : st.tables (pte_to_phys (st.tables (pte_to_phys (st.tables st.kernelPd
      (vpn2 va))) (vpn1 va))) (vpn0 va) % 2 = 1 := by omega
  refine ⟨hpd, ⟨by unfold L1V; omega, by simp only [l1A]; omega⟩,
    by simp only [l1A]; exact h1z,
    by simp only [leafTable, l0A, l1A]; exact h0z,
    by simp only [leafTable, l0A, l1A]; exact hcL, ?_⟩
  simp only [leafTable, l0A, l1A]
  omega

/-! ## Claim C6 (corrected) -/

/-- **C6 counterexample.** The claim says every leaf PTE installed by a
successful `vmm_map` has `V=1` and at least one of `R/W/X` — for every
flags argument.  But `vmm_map(0x80400000, 0x80001000, 0)` succeeds in the
concrete state `st0` (vmm_map ORs `VMM_P_PRESENT` into the flags itself)
and installs at the leaf slot (table `12288`, index `vpn0 = 0`) a PTE with
`V = 1` (bit 0) and `R = W = X = 0` (bits 1-3). -/
theorem c6_counterexample :
    (vmm_map st0 0x80400000 0x80001000 0).1 = 0 ∧
    (vmm_map st0 0x80400000 0x80001000 0).2.tables 12288 0 % 2 = 1 ∧
    (vmm_map st0 0x80400000 0x80001000 0).2.tables 12288 0 / 2 % 2 = 0 ∧
    (vmm_map st0 0x80400000 0x80001000 0).2.tables 12288 0 / 4 % 2 = 0 ∧
    (vmm_map st0 0x80400000 0x80001000 0).2.tables 12288 0 / 8 % 2 = 0 ∧
    vmm_translate (vmm_map st0 0x80400000 0x80001000 0).2 0x80400000 =
      some 0x80001000 := by
  refine ⟨by decide, by decide, by decide, by decide, by decide, by decide⟩

/-- **C6 (amended).** Every leaf PTE installed by a successful `vmm_map`
has `V = 1` (bit 0); it additionally has `R`, `W` and `X` set (bits 1-3)
whenever the flags argument contains `VMM_P_RW` (bit 1) — which is the
case at every `vmm_map` call site in the kernel.  With flags lacking
`VMM_P_RW` the installed leaf has `R = W = X = 0`. -/
theorem c6_amended_leaf_flags (st : VMState) (va pa flags : Nat) (st' : VMState)
    (wf : VMWF st) (hva : va % 4096 = 0) (hpa : pa % 4096 = 0)
    (hva64 : va < 2 ^ 64) (hpa64 : pa < 2 ^ 64)
    (hmap : vmm_map st va pa flags = (0, st')) :
    ∃ T, T ≠ 0 ∧
      st'.tables T (vpn0 va) % 2 = 1 ∧
      (flags / 2 % 2 = 1 →
        st'.tables T (vpn0 va) / 2 % 2 = 1 ∧ st'.tables T (vpn0 va) / 4 % 2 = 1 ∧
          st'.tables T (vpn0 va) / 8 % 2 = 1) ∧
      (flags / 2 % 2 = 0 →
        st'.tables T (vpn0 va) / 2 % 2 = 0 ∧ st'.tables T (vpn0 va) / 4 % 2 = 0 ∧
          st'.tables T (vpn0 va) / 8 % 2 = 0) := by
  obtain ⟨T, hT, hleaf, -⟩ := vmm_map_success_spec st va pa flags wf hva hpa hva64 hpa64 st' hmap
  have hfl := flagsToPte_or_one flags
  have hlt := flagsToPte_lt (flags ||| 1)
  refine ⟨T, hT, ?_, ?_, ?_⟩
  · rw [hleaf, make_pte_mod2, hfl]
    split <;> split <;> omega
  · intro hrw
    rw [hleaf, make_pte_bit1, make_pte_bit2, make_pte_bit3, hfl, if_pos hrw]
    constructor
    · split <;> omega
    constructor
    · split <;> omega
    · split <;> omega
  · intro hrw
    rw [hleaf, make_pte_bit1, make_pte_bit2, make_pte_bit3, hfl,
      if_neg (by omega : ¬ flags / 2 % 2 = 1)]
    constructor
    · split <;> omega
    constructor
    · split <;> omega
    · split <;> omega

/-- Witness for the amended C6 at a concrete input with `VMM_P_RW` set. -/
theorem c6_amended_leaf_flags_witness :
    ∃ T, T ≠ 0 ∧
      (vmm_map st0 0x80400000 0x80001000 6).2.tables T (vpn0 0x80400000) % 2 = 1 ∧
      ((6 : Nat) / 2 % 2 = 1 →
        (vmm_map st0 0x80400000 0x80001000 6).2.tables T (vpn0 0x80400000) / 2 % 2 = 1 ∧
        (vmm_map st0 0x80400000 0x80001000 6).2.tables T (vpn0 0x80400000) / 4 % 2 = 1 ∧
        (vmm_map st0 0x80400000 0x80001000 6).2.tables T (vpn0 0x80400000) / 8 % 2 = 1) ∧
      ((6 : Nat) / 2 % 2 = 0 →
        (vmm_map st0 0x80400000 0x80001000 6).2.tables T (vpn0 0x80400000) / 2 % 2 = 0 ∧
        (vmm_map st0 0x80400000 0x80001000 6).2.tables T (vpn0 0x80400000) / 4 % 2 = 0 ∧
        (vmm_map st0 0x80400000 0x80001000 6).2.tables T (vpn0 0x80400000) / 8 % 2 = 0) := by
  have h1 : (vmm_map st0 0x80400000 0x80001000 6).1 = 0 := by decide
  exact c6_amended_leaf_flags st0 0x80400000 0x80001000 6 _ st0_wf (by decide) (by decide)
    (by decide) (by decide) (Prod.ext h1 rfl)

/-! ## Claim C10 -/

/-- **C10.** For every 4 KiB-aligned `va` that already has a valid leaf
mapping to some page `pa1`, a second successful call
`vmm_map(va, pa2, flags2)` returns 0 and silently overwrites the leaf PTE
— afterwards `vmm_translate(va)` returns `pa2` — and the previously
mapped physical page `pa1` is neither freed (the free list is unchanged)
nor otherwise modified (no data byte of `phys` changes; the map writes
only the one leaf table slot). -/
theorem c10_remap_overwrites (st : VMState) (va pa1 pa2 flags2 : Nat)
    (wf : VMWF st) (hva : va % 4096 = 0) (hva64 : va < 2 ^ 64)
    (hpa2 : pa2 % 4096 = 0) (hpa64 : pa2 < 2 ^ 64)
    (h1 : vmm_translate st va = some pa1) :
    (vmm_map st va pa2 flags2).1 = 0 ∧
    vmm_translate (vmm_map st va pa2 flags2).2 va = some pa2 ∧
    (vmm_map st va pa2 flags2).2.freeList = st.freeList ∧
    (vmm_map st va pa2 flags2).2.phys = st.phys := by
  obtain ⟨hpd, hwa, h1nz, h0nz, hleaf, -⟩ := vmm_translate_some_inv st va pa1 hva64 h1
  have hmap := vmm_map_existing st va pa2 flags2 hpd hva64 hpa64 hva hpa2 hwa h1nz h0nz
  rw [hmap]
  have hvalid : make_pte pa2 (vmm_flags_to_pte_flags (flags2 ||| 1)) % 2 = 1 := by
    rw [make_pte_mod2]
    have := flagsToPte_or_one_mod2 flags2
    have := flagsToPte_lt (flags2 ||| 1)
    omega
  have htr := vmm_translate_writeLeaf_self st va
    (make_pte pa2 (vmm_flags_to_pte_flags (flags2 ||| 1))) wf hwa hva64 hvalid
  refine ⟨rfl, ?_, writeTable_freeList _ _ _ _, writeTable_phys _ _ _ _⟩
  rw [htr, pte_to_phys_make_pte pa2 _ hpa2 hpa64]
  unfold pageOffset
  congr 1
  omega

/-- A concrete well-formed state with one live mapping
`0x80402000 → 0x80002000` (root `0x1000`, L1 table `0x5000`, L0 table
`0x6000`) and three free pages. -/
def st1 : VMState where
  kernelPd := 4096
  tables := fun a i =>
    if a = 4096 ∧ i = 2 then make_pte 20480 1
    else if a = 20480 ∧ i = 2 then make_pte 24576 1
    else if a = 24576 ∧ i = 2 then make_pte 0x80002000 199
    else 0
  phys := fun _ => 0
  freeList := [8192, 12288, 16384]

theorem st1_wf : VMWF st1 := by
  have e1 : ∀ i, L1V st1 i ↔ i = 2 := by
    intro i
    by_cases h : i = 2
    · subst h
      simp only [L1V, st1]
      norm_num
      decide
    · simp only [L1V, st1, h]
      norm_num [h]
  have e1A : l1A st1 2 = 20480 := by
    simp only [l1A, st1]
    norm_num
    decide
  have e0 : ∀ i j, L0V st1 i j ↔ i = 2 ∧ j = 2 := by
    intro i j
    constructor
    · rintro ⟨hi, hj⟩
      have hi2 : i = 2 := (e1 i).mp hi
      subst hi2
      rw [e1A] at hj
      refine ⟨rfl, ?_⟩
      by_cases h : j = 2
      · exact h
      · exfalso
        simp only [st1] at hj
        norm_num [h] at hj
    · rintro ⟨hi, hj⟩
      subst hi
      subst hj
      refine ⟨(e1 2).mpr rfl, ?_⟩
      rw [e1A]
      simp only [st1]
      norm_num
      decide
  have e0A : l0A st1 2 2 = 24576 := by
    simp only [l0A]
    rw [e1A]
    simp only [st1]
    norm_num
    decide
  refine ⟨by decide, ?_, ?_, ?_, ?_, ?_, ?_, by decide, by decide, by decide, by decide,
    by decide, ?_, ?_⟩
  · intro i h
    rw [(e1 i).mp h, e1A]
    decide
  · intro i h
    rw [(e1 i).mp h, e1A]
    decide
  · intro i j h
    obtain ⟨hi, hj⟩ := (e0 i j).mp h
    subst hi; subst hj
    rw [e0A]
    decide
  · intro i j h
    obtain ⟨hi, hj⟩ := (e0 i j).mp h
    subst hi; subst hj
    rw [e0A]
    decide
  · intro i j k h hk
    obtain ⟨hi, hj⟩ := (e0 i j).mp h
    subst hi; subst hj
    rw [e0A, (e1 k).mp hk, e1A]
    decide
  · intro i j i' j' _ _ _ _ h h' _
    obtain ⟨hi, hj⟩ := (e0 i j).mp h
    obtain ⟨hi', hj'⟩ := (e0 i' j').mp h'
    subst hi; subst hj; subst hi'; subst hj'
    exact ⟨rfl, rfl⟩
  · intro a ha i h
    rw [(e1 i).mp h, e1A]
    fin_cases ha <;> decide
  · intro a ha i j h
    obtain ⟨hi, hj⟩ := (e0 i j).mp h
    subst hi; subst hj
    rw [e0A]
    fin_cases ha <;> decide

/-- Witness for C10: remapping the already-mapped `0x80402000` to
`0x80003000` in `st1`. -/
theorem c10_remap_overwrites_witness :
    (vmm_map st1 0x80402000 0x80003000 6).1 = 0 ∧
    vmm_translate (vmm_map st1 0x80402000 0x80003000 6).2 0x80402000 = some 0x80003000 ∧
    (vmm_map st1 0x80402000 0x80003000 6).2.freeList = st1.freeList ∧
    (vmm_map st1 0x80402000 0x80003000 6).2.phys = st1.phys :=
  c10_remap_overwrites st1 0x80402000 0x80002000 0x80003000 6 st1_wf (by decide) (by decide)
    (by decide) (by decide) (by decide)

/-! ## Claim C9 -/

/-- **C9.** For an ecall with syscall number `SYS_EXEC`: if the program
lookup succeeds, the trap frame's `a0` and `a1` slots (indices 4 and 5)
are set to 0 and `mepc` is set to the new entrypoint, and the process's
PCB, stack, and heap are otherwise unchanged (same PCB object with only
the unconditional trap-frame `regstat` copy-back applied; the VM state —
hence every stack and heap byte and mapping — and all process lists are
untouched); if the lookup fails (`sys_exec_lookup` returns
`(uint64_t)-1`), −1 is written into the trap frame's return-value (`a0`)
slot and `mepc` is advanced by 4. -/
theorem c9_trap_exec_spec (st : Kernel) (cur : PCB) (tf : Nat → Nat)
    (tfAddr epc mstatusVal lookupResult : Nat)
    (hcur : st.current = some cur) :
    (lookupResult ≠ 2 ^ 64 - 1 →
      (trapHandlerExec st tf tfAddr epc mstatusVal lookupResult).2.1 4 = 0 ∧
      (trapHandlerExec st tf tfAddr epc mstatusVal lookupResult).2.1 5 = 0 ∧
      (∀ i, i ≠ 4 → i ≠ 5 →
        (trapHandlerExec st tf tfAddr epc mstatusVal lookupResult).2.1 i = tf i) ∧
      (trapHandlerExec st tf tfAddr epc mstatusVal lookupResult).2.2 = lookupResult) ∧
    (lookupResult = 2 ^ 64 - 1 →
      (trapHandlerExec st tf tfAddr epc mstatusVal lookupResult).2.1 4 = 2 ^ 64 - 1 ∧
      (∀ i, i ≠ 4 →
        (trapHandlerExec st tf tfAddr epc mstatusVal lookupResult).2.1 i = tf i) ∧
      (trapHandlerExec st tf tfAddr epc mstatusVal lookupResult).2.2 = epc + 4) ∧
    ((trapHandlerExec st tf tfAddr epc mstatusVal lookupResult).1.current =
      some { cur with regstat := syncRegsFromFrame cur.regstat tf tfAddr epc mstatusVal } ∧
     (trapHandlerExec st tf tfAddr epc mstatusVal lookupResult).1.vm = st.vm ∧
     (trapHandlerExec st tf tfAddr epc mstatusVal lookupResult).1.ready = st.ready ∧
     (trapHandlerExec st tf tfAddr epc mstatusVal lookupResult).1.blocked = st.blocked ∧
     (trapHandlerExec st tf tfAddr epc mstatusVal lookupResult).1.zombies = st.zombies ∧
     (trapHandlerExec st tf tfAddr epc mstatusVal lookupResult).1.nextPid = st.nextPid ∧
     (trapHandlerExec st tf tfAddr epc mstatusVal lookupResult).1.intr = st.intr) := by
  unfold trapHandlerExec
  rw [hcur]
  by_cases hl : lookupResult = 2 ^ 64 - 1
  · rw [if_pos hl]
    refine ⟨fun h => absurd hl h, fun _ => ⟨?_, ?_, rfl⟩, rfl, rfl, rfl, rfl, rfl, rfl, rfl⟩
    · simp [setFrame]
    · intro i hi
      simp [setFrame, hi]
  · rw [if_neg hl]
    refine ⟨fun _ => ⟨?_, ?_, ?_, rfl⟩, fun h => absurd h hl, rfl, rfl, rfl, rfl, rfl, rfl, rfl⟩
    · simp [setFrame]
    · simp [setFrame]
    · intro i hi4 hi5
      simp [setFrame, hi4, hi5]

/-- A default register state for concrete witness processes. -/
def rs0 : RegState := {}

/-- A concrete PCB for witness states. -/
def mkPCB (a : Nat) (pid ppid : Int) (ps : PState) : PCB where
  addr := a
  pid := pid
  ppid := ppid
  name := "proc"
  pstat := ps
  prior := 0
  entrypoint := 0
  regstat := rs0
  stacktop := a + 4096
  brk_base := 0
  brk_size := 0

/-- A concrete base kernel state for witnesses. -/
def k0 : Kernel where
  vm := st0
  nextPid := 3
  idle := mkPCB 1000 0 0 PState.READY
  current := none
  ready := []
  blocked := []
  zombies := []
  intr := true

/-- Witness for C9 at a concrete input (successful lookup). -/
theorem c9_trap_exec_spec_witness :
    ((0x1234 : Nat) ≠ 2 ^ 64 - 1 →
      (trapHandlerExec { k0 with current := some (mkPCB 2000 1 0 PState.RUNNING) }
        (fun i => 100 + i) 5000 64 8 0x1234).2.1 4 = 0 ∧
      (trapHandlerExec { k0 with current := some (mkPCB 2000 1 0 PState.RUNNING) }
        (fun i => 100 + i) 5000 64 8 0x1234).2.1 5 = 0 ∧
      (∀ i, i ≠ 4 → i ≠ 5 →
        (trapHandlerExec { k0 with current := some (mkPCB 2000 1 0 PState.RUNNING) }
          (fun i => 100 + i) 5000 64 8 0x1234).2.1 i = 100 + i) ∧
      (trapHandlerExec { k0 with current := some (mkPCB 2000 1 0 PState.RUNNING) }
        (fun i => 100 + i) 5000 64 8 0x1234).2.2 = 0x1234) ∧
    ((0x1234 : Nat) = 2 ^ 64 - 1 →
      (trapHandlerExec { k0 with current := some (mkPCB 2000 1 0 PState.RUNNING) }
        (fun i => 100 + i) 5000 64 8 0x1234).2.1 4 = 2 ^ 64 - 1 ∧
      (∀ i, i ≠ 4 →
        (trapHandlerExec { k0 with current := some (mkPCB 2000 1 0 PState.RUNNING) }
          (fun i => 100 + i) 5000 64 8 0x1234).2.1 i = 100 + i) ∧
      (trapHandlerExec { k0 with current := some (mkPCB 2000 1 0 PState.RUNNING) }
        (fun i => 100 + i) 5000 64 8 0x1234).2.2 = 64 + 4) ∧
    ((trapHandlerExec { k0 with current := some (mkPCB 2000 1 0 PState.RUNNING) }
        (fun i => 100 + i) 5000 64 8 0x1234).1.current =
      some { mkPCB 2000 1 0 PState.RUNNING with
              regstat := syncRegsFromFrame (mkPCB 2000 1 0 PState.RUNNING).regstat
                (fun i => 100 + i) 5000 64 8 } ∧
     (trapHandlerExec { k0 with current := some (mkPCB 2000 1 0 PState.RUNNING) }
        (fun i => 100 + i) 5000 64 8 0x1234).1.vm =
        ({ k0 with current := some (mkPCB 2000 1 0 PState.RUNNING) } : Kernel).vm ∧
     (trapHandlerExec { k0 with current := some (mkPCB 2000 1 0 PState.RUNNING) }
        (fun i => 100 + i) 5000 64 8 0x1234).1.ready =
        ({ k0 with current := some (mkPCB 2000 1 0 PState.RUNNING) } : Kernel).ready ∧
     (trapHandlerExec { k0 with current := some (mkPCB 2000 1 0 PState.RUNNING) }
        (fun i => 100 + i) 5000 64 8 0x1234).1.blocked =
        ({ k0 with current := some (mkPCB 2000 1 0 PState.RUNNING) } : Kernel).blocked ∧
     (trapHandlerExec { k0 with current := some (mkPCB 2000 1 0 PState.RUNNING) }
        (fun i => 100 + i) 5000 64 8 0x1234).1.zombies =
        ({ k0 with current := some (mkPCB 2000 1 0 PState.RUNNING) } : Kernel).zombies ∧
     (trapHandlerExec { k0 with current := some (mkPCB 2000 1 0 PState.RUNNING) }
        (fun i => 100 + i) 5000 64 8 0x1234).1.nextPid =
        ({ k0 with current := some (mkPCB 2000 1 0 PState.RUNNING) } : Kernel).nextPid ∧
     (trapHandlerExec { k0 with current := some (mkPCB 2000 1 0 PState.RUNNING) }
        (fun i => 100 + i) 5000 64 8 0x1234).1.intr =
        ({ k0 with current := some (mkPCB 2000 1 0 PState.RUNNING) } : Kernel).intr) :=
  c9_trap_exec_spec { k0 with current := some (mkPCB 2000 1 0 PState.RUNNING) }
    (mkPCB 2000 1 0 PState.RUNNING) (fun i => 100 + i) 5000 64 8 0x1234 rfl

/-- When the scheduler dequeues a non-`RUNNING` process, it performs a
context switch and leaves the zombie and blocked lists untouched. -/
theorem schedule_keeps_lists (st : Kernel) (q : PCB) (rest : List PCB)
    (hr : st.ready = q :: rest) (hq : q.pstat ≠ PState.RUNNING) :
    (schedule st).zombies = st.zombies ∧ (schedule st).blocked = st.blocked := by
  have hcond : ¬ (isCurrentAddr (intrOff st).current q.addr = true ∧
      q.pstat = PState.RUNNING) := by
    rintro ⟨-, h⟩
    exact hq h
  simp only [schedule, intrOff_ready, hr]
  rw [if_neg hcond]
  rcases hc : (intrOff st).current with - | old
  · exact ⟨rfl, rfl⟩
  · dsimp only
    by_cases ho : old.pstat = PState.RUNNING
    · rw [if_pos ho]
      by_cases hi : old.addr ≠ (intrOff st).idle.addr
      · rw [if_pos hi]
        exact ⟨rfl, rfl⟩
      · rw [if_neg hi]
        exact ⟨rfl, rfl⟩
    · rw [if_neg ho]
      exact ⟨rfl, rfl⟩

/-! ## Claim C4 -/

/-- **C4.** When a process with `ppid ≠ 0` calls `proc_exit` while its
parent (the PCB whose pid equals that ppid) is on `blocked_list`, the
exiting process ends `TERMINATED` at the head of `zombie_list`, and the
parent is removed from `blocked_list`, set `READY`, and enqueued on
`ready_queue` after any processes already present.  The zombie insertion
is ordered before the parent's wake-up: `proc_exit_body` pushes the
zombie (`proc.c:430-432`) and only then scans `blocked_list`
(`proc.c:437-455`), and `proc_exit = schedule ∘ proc_exit_body`, which
the first conjunct exhibits.  The final two conjuncts show the facts
survive the `schedule()` call that `proc_exit` ends with (under the sane
hypothesis that no enqueued ready process is marked `RUNNING`). -/
theorem c4_exit_wakes_parent (st : Kernel) (p par : PCB)
    (hcur : st.current = some p) (hpp : p.ppid ≠ 0)
    (hfind : findPid st.blocked p.ppid = some par)
    (hready : ∀ q ∈ st.ready, q.pstat ≠ PState.RUNNING) :
    (∃ mid, proc_exit st = schedule mid ∧
      mid.zombies = { p with pstat := PState.TERMINATED } :: st.zombies ∧
      mid.blocked = removeFirstPid st.blocked p.ppid ∧
      mid.ready = st.ready ++ [{ par with pstat := PState.READY }] ∧
      mid.current = some { p with pstat := PState.TERMINATED }) ∧
    (proc_exit st).zombies = { p with pstat := PState.TERMINATED } :: st.zombies ∧
    (proc_exit st).blocked = removeFirstPid st.blocked p.ppid := by
  have hbody : proc_exit_body (intrOff st) p =
      { intrOff st with
        current := some { p with pstat := PState.TERMINATED },
        zombies := { p with pstat := PState.TERMINATED } :: st.zombies,
        blocked := removeFirstPid st.blocked p.ppid,
        ready := st.ready ++ [{ par with pstat := PState.READY }] } := by
    unfold proc_exit_body
    rw [if_pos hpp]
    have : findPid (intrOff st).blocked p.ppid = some par := hfind
    rw [this]
    rfl
  have hexit : proc_exit st = schedule (proc_exit_body (intrOff st) p) := by
    simp only [proc_exit, intrOff_current, hcur]
  refine ⟨⟨proc_exit_body (intrOff st) p, hexit, by rw [hbody], by rw [hbody], by rw [hbody],
    by rw [hbody]⟩, ?_⟩
  have hmidr : (proc_exit_body (intrOff st) p).ready =
      st.ready ++ [{ par with pstat := PState.READY }] := by rw [hbody]
  have hmidz : (proc_exit_body (intrOff st) p).zombies =
      { p with pstat := PState.TERMINATED } :: st.zombies := by rw [hbody]
  have hmidb : (proc_exit_body (intrOff st) p).blocked =
      removeFirstPid st.blocked p.ppid := by rw [hbody]
  rw [hexit]
  rcases hr : st.ready with _ | ⟨q, rest⟩
  · rw [hr, List.nil_append] at hmidr
    have := schedule_keeps_lists (proc_exit_body (intrOff st) p)
      { par with pstat := PState.READY } [] hmidr (by simp)
    rw [this.1, this.2, hmidz, hmidb]
    exact ⟨rfl, rfl⟩
  · rw [hr, List.cons_append] at hmidr
    have := schedule_keeps_lists (proc_exit_body (intrOff st) p) q
      (rest ++ [{ par with pstat := PState.READY }]) hmidr
      (hready q (by rw [hr]; exact List.mem_cons_self q rest))
    rw [this.1, this.2, hmidz, hmidb]
    exact ⟨rfl, rfl⟩

/-- Witness for C4 at a concrete state: pid 2 (ppid 1) exits while its
parent (pid 1) is blocked and pid 4 sits on the ready queue. -/
theorem c4_exit_wakes_parent_witness :
    (∃ mid, proc_exit { k0 with
        current := some (mkPCB 2000 2 1 PState.RUNNING),
        ready := [mkPCB 4000 4 0 PState.READY],
        blocked := [mkPCB 3000 1 0 PState.BLOCKED] } = schedule mid ∧
      mid.zombies = [{ mkPCB 2000 2 1 PState.RUNNING with pstat := PState.TERMINATED }] ∧
      mid.blocked = removeFirstPid [mkPCB 3000 1 0 PState.BLOCKED] 1 ∧
      mid.ready = [mkPCB 4000 4 0 PState.READY] ++
        [{ mkPCB 3000 1 0 PState.BLOCKED with pstat := PState.READY }] ∧
      mid.current = some { mkPCB 2000 2 1 PState.RUNNING with pstat := PState.TERMINATED }) ∧
    (proc_exit { k0 with
        current := some (mkPCB 2000 2 1 PState.RUNNING),
        ready := [mkPCB 4000 4 0 PState.READY],
        blocked := [mkPCB 3000 1 0 PState.BLOCKED] }).zombies =
      [{ mkPCB 2000 2 1 PState.RUNNING with pstat := PState.TERMINATED }] ∧
    (proc_exit { k0 with
        current := some (mkPCB 2000 2 1 PState.RUNNING),
        ready := [mkPCB 4000 4 0 PState.READY],
        blocked := [mkPCB 3000 1 0 PState.BLOCKED] }).blocked =
      removeFirstPid [mkPCB 3000 1 0 PState.BLOCKED] 1 :=
  c4_exit_wakes_parent _ (mkPCB 2000 2 1 PState.RUNNING) (mkPCB 3000 1 0 PState.BLOCKED)
    rfl (by decide) (by decide)
    (by intro q hq; fin_cases hq; decide)

/-! ## Helper specifications for the return paths of the process ops -/

/-- `reapScan` applies the `next_pid` tail-reuse rule to the pid it reaps. -/
theorem reapScan_nextPid (vm : VMState) (npid mypid : Int) (l : List PCB) :
    ∀ r vm' npid' l', reapScan vm npid mypid l = some (r, vm', npid', l') →
      npid' = if r = npid - 1 ∧ npid > 1 then npid - 1 else npid := by
  induction l with
  | nil =>
    intro r vm' npid' l' h
    simp [reapScan] at h
  | cons p rest ih =>
    intro r vm' npid' l' h
    simp only [reapScan] at h
    by_cases hp : p.ppid = mypid
    · rw [if_pos hp] at h
      simp only [Option.some.injEq, Prod.mk.injEq] at h
      obtain ⟨hr, -, hn, -⟩ := h
      rw [← hr, ← hn]
    · rw [if_neg hp] at h
      rcases hrs : reapScan vm npid mypid rest with - | ⟨r2, vm2, npid2, rest2⟩
      · rw [hrs] at h
        simp at h
      · rw [hrs] at h
        simp only [Option.some.injEq, Prod.mk.injEq] at h
        obtain ⟨hr, -, hn, -⟩ := h
        rw [← hr, ← hn]
        exact ih r2 vm2 npid2 rest2 hrs

/-- Whenever `proc_wait_and_reap` returns, it returns with interrupts on
(when a current process exists) and has applied the `next_pid` rule to the
reaped pid. -/
theorem proc_wait_and_reap_returns_spec (st : Kernel) (r : Int) (st' : Kernel)
    (h : proc_wait_and_reap st = (some r, st')) :
    st'.nextPid = (if r = st.nextPid - 1 ∧ st.nextPid > 1 then st.nextPid - 1
      else st.nextPid) ∧
    (st.current ≠ none → st'.intr = true) := by
  simp only [proc_wait_and_reap] at h
  rcases hc : st.current with - | me
  · rw [hc] at h
    simp only [Prod.mk.injEq, Option.some.injEq] at h
    obtain ⟨hr, hst⟩ := h
    subst hst
    rw [← hr, if_neg (by omega : ¬ ((-1 : Int) = st.nextPid - 1 ∧ st.nextPid > 1))]
    exact ⟨rfl, fun hh => absurd rfl hh⟩
  · rw [hc] at h
    dsimp only at h
    rcases hrs : reapScan (intrOff st).vm (intrOff st).nextPid me.pid (intrOff st).zombies
        with - | ⟨cp, vm2, npid2, zl2⟩
    · rw [hrs] at h
      simp at h
    · rw [hrs] at h
      dsimp only at h
      simp only [Prod.mk.injEq, Option.some.injEq] at h
      obtain ⟨hr, hst⟩ := h
      have hn := reapScan_nextPid (intrOff st).vm (intrOff st).nextPid me.pid
        (intrOff st).zombies cp vm2 npid2 zl2 hrs
      constructor
      · rw [← hst, ← hr]
        exact hn
      · intro _
        rw [← hst]
        rfl

/-- Whenever `proc_kill` returns, it returns with interrupts on and with
`next_pid` unchanged (`proc.c:592-678` has no `next_pid` update). -/
theorem proc_kill_returns_spec (st : Kernel) (pid r : Int) (st' : Kernel)
    (h : proc_kill st pid = (some r, st')) :
    st'.intr = true ∧ st'.nextPid = st.nextPid := by
  simp only [proc_kill] at h
  by_cases h1 : pid < 0
  · rw [if_pos h1] at h
    simp only [Prod.mk.injEq, Option.some.injEq] at h
    rw [← h.2]
    exact ⟨rfl, rfl⟩
  rw [if_neg h1] at h
  by_cases h2 : (intrOff st).idle.pid = pid
  · rw [if_pos h2] at h
    simp only [Prod.mk.injEq, Option.some.injEq] at h
    rw [← h.2]
    exact ⟨rfl, rfl⟩
  rw [if_neg h2] at h
  by_cases h3 : isCurrentPid (intrOff st).current pid = true
  · rw [if_pos h3] at h
    simp at h
  rw [if_neg h3] at h
  rcases hf1 : findRemovePid (intrOff st).ready pid with - | ⟨p1, rq⟩
  · rw [hf1] at h
    rcases hf2 : findRemovePid (intrOff st).blocked pid with - | ⟨p2, bl⟩
    · rw [hf2] at h
      rcases hf3 : findRemovePid (intrOff st).zombies pid with - | ⟨p3, zl⟩
      · rw [hf3] at h
        simp only [Prod.mk.injEq, Option.some.injEq] at h
        rw [← h.2]
        exact ⟨rfl, rfl⟩
      · rw [hf3] at h
        simp only [Prod.mk.injEq, Option.some.injEq] at h
        rw [← h.2]
        exact ⟨rfl, rfl⟩
    · rw [hf2] at h
      simp only [Prod.mk.injEq, Option.some.injEq] at h
      rw [← h.2]
      exact ⟨rfl, rfl⟩
  · rw [hf1] at h
    simp only [Prod.mk.injEq, Option.some.injEq] at h
    rw [← h.2]
    exact ⟨rfl, rfl⟩

/-- `zombies_free` on a single orphan zombie applies the `next_pid` rule. -/
theorem zombies_free_single (st : Kernel) (p : PCB) (hz : st.zombies = [p])
    (hp : p.ppid = 0) :
    (zombies_free st).nextPid =
      if p.pid = st.nextPid - 1 ∧ st.nextPid > 1 then st.nextPid - 1 else st.nextPid := by
  simp only [zombies_free, hz, zombiesFreeScan]
  rw [if_pos hp]

/-- Every return path of `proc_fork` re-enables interrupts before
returning (`proc.c:218-321`). -/
theorem proc_fork_intr (st : Kernel) (mepc : Nat) : (proc_fork st mepc).2.intr = true := by
  unfold proc_fork
  dsimp only
  split
  · rfl
  split
  · rfl
  split
  · rfl
  split
  · split
    · rfl
    · rfl
  · rfl

/-! ## Claim C7 (corrected) -/

/-- **C7 counterexample.** The claim says `next_pid` is decremented when a
process with pid `next_pid − 1` is destroyed by `proc_kill`.  But in the
concrete state below (`next_pid = 3`, a READY process with pid 2 on the
ready queue), `proc_kill(2)` destroys pid `2 = next_pid − 1`, returns 0,
and leaves `next_pid = 3`: `proc_kill` contains no `next_pid` update. -/
theorem c7_counterexample :
    ({ k0 with ready := [mkPCB 2000 2 1 PState.READY] } : Kernel).nextPid - 1 = 2 ∧
    (proc_kill { k0 with ready := [mkPCB 2000 2 1 PState.READY] } 2).1 = some 0 ∧
    (proc_kill { k0 with ready := [mkPCB 2000 2 1 PState.READY] } 2).2.nextPid = 3 := by
  refine ⟨by decide, by decide, by decide⟩

/-- **C7 (amended).** Destroying a process whose pid equals `next_pid − 1`
through `proc_wait_and_reap` or through `zombies_free` (orphan reaping)
decrements `next_pid` by one (guarded by `next_pid > 1`); destroying a
process with any other pid through those paths leaves `next_pid`
unchanged; and `proc_kill`, whenever it returns, never changes
`next_pid`. -/
theorem c7_amended_nextpid :
    (∀ st r st', proc_wait_and_reap st = (some r, st') →
      st'.nextPid = if r = st.nextPid - 1 ∧ st.nextPid > 1 then st.nextPid - 1
        else st.nextPid) ∧
    (∀ st p, st.zombies = [p] → p.ppid = 0 →
      (zombies_free st).nextPid =
        if p.pid = st.nextPid - 1 ∧ st.nextPid > 1 then st.nextPid - 1 else st.nextPid) ∧
    (∀ st pid r st', proc_kill st pid = (some r, st') → st'.nextPid = st.nextPid) :=
  ⟨fun st r st' h => (proc_wait_and_reap_returns_spec st r st' h).1,
   fun st p hz hp => zombies_free_single st p hz hp,
   fun st pid r st' h => (proc_kill_returns_spec st pid r st' h).2⟩

/-- Witness for the amended C7: a parent (pid 1) reaps its zombie child
(pid 2) with `next_pid = 3`, decrementing it to 2; `zombies_free` reaps an
orphan with pid 2 likewise; `proc_kill` of a blocked pid 2 leaves
`next_pid = 3`. -/
theorem c7_amended_nextpid_witness :
    (proc_wait_and_reap { k0 with
        current := some (mkPCB 3000 1 0 PState.RUNNING),
        zombies := [mkPCB 2000 2 1 PState.TERMINATED] }).2.nextPid =
      (if (2 : Int) = 3 - 1 ∧ (3 : Int) > 1 then (3 : Int) - 1 else 3) ∧
    (zombies_free { k0 with zombies := [mkPCB 2000 2 0 PState.TERMINATED] }).nextPid =
      (if (2 : Int) = 3 - 1 ∧ (3 : Int) > 1 then (3 : Int) - 1 else 3) ∧
    (proc_kill { k0 with blocked := [mkPCB 2000 2 1 PState.BLOCKED] } 2).2.nextPid = 3 := by
  refine ⟨?_, ?_, ?_⟩
  · exact c7_amended_nextpid.1 _ 2 _
      (Prod.ext (by decide) rfl)
  · exact c7_amended_nextpid.2.1 _ (mkPCB 2000 2 0 PState.TERMINATED) rfl (by decide)
  · exact c7_amended_nextpid.2.2 _ 2 0 _ (Prod.ext (by decide) rfl)

/-! ## Claim C8 (corrected) -/

/-- **C8 counterexample.** The claim says each of the listed operations,
whenever it returns, returns with the machine interrupt-enable bit set.
But `proc_exit` (`proc.c:425-428`) does `intr_off()` and then, when
`current_proc` is null, returns immediately with no `intr_on()`: starting
from the concrete state `k0` (no current process, interrupts enabled),
`proc_exit` returns with interrupts disabled. -/
theorem c8_counterexample :
    k0.current = none ∧ k0.intr = true ∧ (proc_exit k0).intr = false := by
  refine ⟨rfl, rfl, by decide⟩

/-- **C8 (amended).** `proc_fork` returns with the interrupt-enable bit
set on every path; `proc_wait_and_reap` (called with a current process)
and `proc_kill`, whenever they return, return with it set;
`proc_suspend_current` re-enables interrupts on its early-return path; and
`schedule` re-enables interrupts on its no-switch return path.  `proc_exit`
never returns when a current process exists; on the defensive
no-current path it returns with interrupts still disabled. -/
theorem c8_amended_intr :
    (∀ st mepc, (proc_fork st mepc).2.intr = true) ∧
    (∀ st (me : PCB) r st', st.current = some me → proc_wait_and_reap st = (some r, st') →
      st'.intr = true) ∧
    (∀ st pid r st', proc_kill st pid = (some r, st') → st'.intr = true) ∧
    (∀ st u st', proc_suspend_current st = (some u, st') → st'.intr = true) ∧
    (∀ st (c : PCB), st.ready = [] → st.current = some c → c.pstat = PState.RUNNING →
      c.addr ≠ st.idle.addr → (schedule st).intr = true) := by
  refine ⟨proc_fork_intr, ?_, ?_, ?_, ?_⟩
  · intro st me r st' hme h
    exact (proc_wait_and_reap_returns_spec st r st' h).2 (by rw [hme]; simp)
  · intro st pid r st' h
    exact (proc_kill_returns_spec st pid r st' h).1
  · intro st u st' h
    simp only [proc_suspend_current] at h
    rcases hc : (intrOff st).current with - | c
    · rw [hc] at h
      simp only [Prod.mk.injEq, Option.some.injEq] at h
      rw [← h.2]
      rfl
    · rw [hc] at h
      dsimp only at h
      by_cases hi : c.addr = (intrOff st).idle.addr
      · rw [if_pos hi] at h
        simp only [Prod.mk.injEq, Option.some.injEq] at h
        rw [← h.2]
        rfl
      · rw [if_neg hi] at h
        simp at h
  · intro st c hr hc hrun hidle
    simp only [schedule, intrOff_ready, hr, intrOff_current, hc, intrOff_idle]
    rw [if_pos hrun, if_pos ?_]
    · rfl
    · dsimp only
      rw [if_pos ⟨hrun, hidle⟩]
      constructor
      · simp [isCurrentAddr]
      · exact hrun

/-- Witness for the amended C8, instantiating each conjunct at a concrete
state. -/
theorem c8_amended_intr_witness :
    (proc_fork k0 0).2.intr = true ∧
    (proc_wait_and_reap { k0 with
        current := some (mkPCB 3000 1 0 PState.RUNNING),
        zombies := [mkPCB 2000 2 1 PState.TERMINATED] }).2.intr = true ∧
    (proc_kill { k0 with blocked := [mkPCB 2000 2 1 PState.BLOCKED] } 2).2.intr = true ∧
    (proc_suspend_current k0).2.intr = true ∧
    (schedule { k0 with current := some (mkPCB 2000 1 0 PState.RUNNING) }).intr = true := by
  refine ⟨c8_amended_intr.1 k0 0, ?_, ?_, ?_, ?_⟩
  · exact c8_amended_intr.2.1 _ (mkPCB 3000 1 0 PState.RUNNING) 2 _ rfl
      (Prod.ext (by decide) rfl)
  · exact c8_amended_intr.2.2.1 _ 2 0 _ (Prod.ext (by decide) rfl)
  · exact c8_amended_intr.2.2.2.1 k0 () _ (Prod.ext (by decide) rfl)
  · exact c8_amended_intr.2.2.2.2 _ (mkPCB 2000 1 0 PState.RUNNING) rfl rfl rfl (by decide)

/-! ## Claims C2 and C3: `proc_fork` infrastructure -/

/-- `copyUserPage` never changes the page tables. -/
theorem copyUserPage_tables (st : VMState) (d s : Nat) :
    (copyUserPage st d s).tables = st.tables := by
  unfold copyUserPage
  rcases vmm_translate st d with - | dpa <;> rcases vmm_translate st s with - | spa <;> rfl

/-- `copyUserPage` never changes the free list. -/
theorem copyUserPage_freeList (st : VMState) (d s : Nat) :
    (copyUserPage st d s).freeList = st.freeList := by
  unfold copyUserPage
  rcases vmm_translate st d with - | dpa <;> rcases vmm_translate st s with - | spa <;> rfl

/-- `copyUserPage` never changes the root pointer. -/
theorem copyUserPage_kernelPd (st : VMState) (d s : Nat) :
    (copyUserPage st d s).kernelPd = st.kernelPd := by
  unfold copyUserPage
  rcases vmm_translate st d with - | dpa <;> rcases vmm_translate st s with - | spa <;> rfl

/-- Reading outside the destination page of a `copyPhysPage`. -/
theorem copyPhysPage_phys_out (st : VMState) (d s x : Nat)
    (h : ¬ (d ≤ x ∧ x < d + 4096)) :
    (copyPhysPage st d s).phys x = st.phys x := by
  simp only [copyPhysPage]
  rw [if_neg h]

/-- Reading inside the destination page of a `copyPhysPage`: the
corresponding source byte. -/
theorem copyPhysPage_phys_in (st : VMState) (d s off : Nat) (h : off < 4096) :
    (copyPhysPage st d s).phys (d + off) = st.phys (s + off) := by
  simp only [copyPhysPage]
  rw [if_pos ⟨Nat.le_add_right d off, by omega⟩]
  congr 1
  omega

/-- Reading outside the zeroed page of a `zeroDataPage`. -/
theorem zeroDataPage_phys_out (st : VMState) (a x : Nat)
    (h : ¬ (a ≤ x ∧ x < a + 4096)) :
    (zeroDataPage st a).phys x = st.phys x := by
  simp only [zeroDataPage]
  rw [if_neg h]

/-- Two distinct aligned physical pages have disjoint byte ranges. -/
theorem pages_disjoint (p q off : Nat) (hp : p % 4096 = 0) (hq : q % 4096 = 0)
    (hne : p ≠ q) (hoff : off < 4096) : ¬ (p ≤ q + off ∧ q + off < p + 4096) := by
  omega

/-- `L1V` depends only on `kernelPd` and `tables`. -/
theorem L1V_congr (st st' : VMState) (hpd : st'.kernelPd = st.kernelPd)
    (ht : st'.tables = st.tables) (i : Nat) : L1V st' i ↔ L1V st i := by
  unfold L1V
  rw [ht, hpd]

/-- `l1A` depends only on `kernelPd` and `tables`. -/
theorem l1A_congr (st st' : VMState) (hpd : st'.kernelPd = st.kernelPd)
    (ht : st'.tables = st.tables) (i : Nat) : l1A st' i = l1A st i := by
  unfold l1A
  rw [ht, hpd]

/-- `L0V` depends only on `kernelPd` and `tables`. -/
theorem L0V_congr (st st' : VMState) (hpd : st'.kernelPd = st.kernelPd)
    (ht : st'.tables = st.tables) (i j : Nat) : L0V st' i j ↔ L0V st i j := by
  unfold L0V
  rw [ht, l1A_congr st st' hpd ht i, L1V_congr st st' hpd ht i]

/-- `l0A` depends only on `kernelPd` and `tables`. -/
theorem l0A_congr (st st' : VMState) (hpd : st'.kernelPd = st.kernelPd)
    (ht : st'.tables = st.tables) (i j : Nat) : l0A st' i j = l0A st i j := by
  unfold l0A
  rw [ht, l1A_congr st st' hpd ht i]

/-- `walkExists` depends only on `kernelPd` and `tables`. -/
theorem walkExists_congr (st st' : VMState) (hpd : st'.kernelPd = st.kernelPd)
    (ht : st'.tables = st.tables) (va : Nat) : walkExists st' va ↔ walkExists st va :=
  L0V_congr st st' hpd ht _ _

/-- `leafTable` depends only on `kernelPd` and `tables`. -/
theorem leafTable_congr (st st' : VMState) (hpd : st'.kernelPd = st.kernelPd)
    (ht : st'.tables = st.tables) (va : Nat) : leafTable st' va = leafTable st va :=
  l0A_congr st st' hpd ht _ _

/-- Well-formedness depends only on `kernelPd`, `tables` and `freeList`. -/
theorem VMWF_congr (st st' : VMState) (hpd : st'.kernelPd = st.kernelPd)
    (ht : st'.tables = st.tables) (hfl : st'.freeList = st.freeList)
    (wf : VMWF st) : VMWF st' := by
  have hL1 := L1V_congr st st' hpd ht
  have hl1 := l1A_congr st st' hpd ht
  have hL0 := L0V_congr st st' hpd ht
  have hl0 := l0A_congr st st' hpd ht
  refine ⟨?_, ?_, ?_, ?_, ?_, ?_, ?_, ?_, ?_, ?_, ?_, ?_, ?_, ?_⟩
  · rw [hpd]; exact wf.pd_ne
  · intro i h; rw [hl1]; exact wf.l1_ne i ((hL1 i).mp h)
  · intro i h; rw [hl1, hpd]; exact wf.l1_ne_pd i ((hL1 i).mp h)
  · intro i j h; rw [hl0]; exact wf.l0_ne i j ((hL0 i j).mp h)
  · intro i j h; rw [hl0, hpd]; exact wf.l0_ne_pd i j ((hL0 i j).mp h)
  · intro i j k h hk; rw [hl0, hl1]
    exact wf.l0_ne_l1 i j k ((hL0 i j).mp h) ((hL1 k).mp hk)
  · intro i j i' j' hi hj hi' hj' h h' heq
    rw [hl0, hl0] at heq
    exact wf.l0_inj i j i' j' hi hj hi' hj' ((hL0 i j).mp h) ((hL0 i' j').mp h') heq
  · rw [hfl]; exact wf.fr_nodup
  · rw [hfl]; exact wf.fr_al
  · rw [hfl]; exact wf.fr_nz
  · rw [hfl]; exact wf.fr_lt
  · rw [hfl, hpd]; exact wf.fr_pd
  · rw [hfl]; intro a ha i h; rw [hl1]; exact wf.fr_l1 a ha i ((hL1 i).mp h)
  · rw [hfl]; intro a ha i j h; rw [hl0]; exact wf.fr_l0 a ha i j ((hL0 i j).mp h)

/-- Popping the free-list head (what `kalloc` does) preserves
well-formedness. -/
theorem VMWF_tail (st : VMState) (a : Nat) (rest : List Nat)
    (hfl : st.freeList = a :: rest) (wf : VMWF st) :
    VMWF { st with freeList := rest } := by
  have hmem : ∀ x ∈ rest, x ∈ st.freeList := by
    intro x hx
    rw [hfl]
    exact List.mem_cons_of_mem a hx
  have hnd : st.freeList.Nodup := wf.fr_nodup
  rw [hfl] at hnd
  refine ⟨wf.pd_ne, wf.l1_ne, wf.l1_ne_pd, wf.l0_ne, wf.l0_ne_pd, wf.l0_ne_l1, wf.l0_inj,
    hnd.of_cons, ?_, ?_, ?_, ?_, ?_, ?_⟩
  · intro x hx; exact wf.fr_al x (hmem x hx)
  · intro x hx; exact wf.fr_nz x (hmem x hx)
  · intro x hx; exact wf.fr_lt x (hmem x hx)
  · intro x hx; exact wf.fr_pd x (hmem x hx)
  · intro x hx; exact wf.fr_l1 x (hmem x hx)
  · intro x hx; exact wf.fr_l0 x (hmem x hx)

/-- Unfolding equation for a `forkLoop` step. -/
theorem forkLoop_succ (vm : VMState) (cbase pbase j n : Nat) :
    forkLoop vm cbase pbase j (n + 1) =
      (let r := vmm_map_page vm (cbase + j * PAGE_SIZE) (2 ||| 4)
       if r.1 ≠ 0 then (false, unmapRange r.2 cbase 0 j)
       else forkLoop (copyUserPage r.2 (cbase + j * PAGE_SIZE) (pbase + j * PAGE_SIZE))
         cbase pbase (j + 1) n) := rfl

/-- `forkLoop` with no pages left succeeds. -/
theorem forkLoop_zero (vm : VMState) (cbase pbase j : Nat) :
    forkLoop vm cbase pbase j 0 = (true, vm) := rfl

/-- Unfolding equation for an `unmapRange` step. -/
theorem unmapRange_succ (vm : VMState) (base j n : Nat) :
    unmapRange vm base j (n + 1) =
      unmapRange (vmm_unmap vm (base + j * PAGE_SIZE) 1).2 base (j + 1) n := rfl

/-- `unmapRange` of zero pages. -/
theorem unmapRange_zero (vm : VMState) (base j : Nat) :
    unmapRange vm base j 0 = vm := rfl

/-- `kfree` pushes the freed page onto the free list. -/
theorem kfree_freeList (st : VMState) (a : Nat) :
    (kfree st a).freeList = a :: st.freeList := rfl

/-- `kfree` does not change translations. -/
theorem vmm_translate_kfree (st : VMState) (a va : Nat) :
    vmm_translate (kfree st a) va = vmm_translate st va :=
  vmm_translate_congr st (kfree st a) va rfl rfl

/-! ## Claim C3 -/

/-- **C3.** If, during `proc_fork`'s user-heap deep copy, mapping a child
heap page fails, then fork unmaps and frees every heap page it already
mapped for the child in this call, frees the child's kernel stack page and
PCB, and returns null; no partially constructed child is left on any list.
Formalised for a two-page parent heap with exactly three free pages (PCB,
kernel stack and first heap page): the second heap-page map fails for want
of memory, and `proc_fork` returns null with the free list restored
exactly (first heap page unmapped — its translation is null — and freed,
stack and PCB freed) and `ready_queue`, `blocked_list`, `zombie_list` and
`current_proc` all unchanged. -/
theorem c3_fork_rollback (st : Kernel) (parent : PCB) (mepc : Nat) (a b c : Nat)
    (wf : VMWF st.vm)
    (hcur : st.current = some parent)
    (hbb : parent.brk_base ≠ 0)
    (hnp : st.nextPid < 2 ^ 20)
    (hbs : PAGE_SIZE < parent.brk_size) (hbs8 : parent.brk_size ≤ 2 * PAGE_SIZE)
    (hwk : ∀ j, j < 2 → walkExists st.vm
        (HEAP_USER_BASE + st.nextPid.toNat * PER_PROC_HEAP + j * PAGE_SIZE))
    (hfl : st.vm.freeList = [a, b, c]) :
    (proc_fork st mepc).1 = none ∧
    (proc_fork st mepc).2.vm.freeList = st.vm.freeList ∧
    vmm_translate (proc_fork st mepc).2.vm
        (HEAP_USER_BASE + st.nextPid.toNat * PER_PROC_HEAP) = none ∧
    (proc_fork st mepc).2.ready = st.ready ∧
    (proc_fork st mepc).2.blocked = st.blocked ∧
    (proc_fork st mepc).2.zombies = st.zombies ∧
    (proc_fork st mepc).2.current = st.current := by
  have hal0 : (HEAP_USER_BASE + st.nextPid.toNat * PER_PROC_HEAP) % 4096 = 0 := by
    simp only [HEAP_USER_BASE, PER_PROC_HEAP]
    omega
  have h640 : HEAP_USER_BASE + st.nextPid.toNat * PER_PROC_HEAP < 2 ^ 64 := by
    simp only [HEAP_USER_BASE, PER_PROC_HEAP]
    omega
  have hmc : c ∈ st.vm.freeList := by rw [hfl]; simp
  have hcal : c % 4096 = 0 := wf.fr_al c hmc
  have hclt : c < 2 ^ 64 := wf.fr_lt c hmc
  have hwk0 : walkExists st.vm (HEAP_USER_BASE + st.nextPid.toNat * PER_PROC_HEAP) := by
    have h := hwk 0 (by omega)
    simpa using h
  have hcond : parent.brk_base ≠ 0 ∧ parent.brk_size > 0 := by
    refine ⟨hbb, ?_⟩
    simp only [PAGE_SIZE] at hbs
    omega
  have hpg : (parent.brk_size + PAGE_SIZE - 1) / PAGE_SIZE = 2 := by
    simp only [PAGE_SIZE] at hbs hbs8 ⊢
    omega
  obtain ⟨res, K, hE⟩ : ∃ res K, proc_fork st mepc = (res, K) := ⟨_, _, rfl⟩
  have hE0 := hE
  unfold proc_fork at hE
  dsimp only at hE
  simp only [intrOff_current, intrOff_vm, intrOff_nextPid, intrOff_idle, intrOff_ready,
    intrOff_blocked, intrOff_zombies, intrOff_intr] at hE
  rw [hcur] at hE
  dsimp only at hE
  have hk1 : kalloc st.vm = (some a, { st.vm with freeList := [b, c] }) := by
    unfold kalloc
    rw [hfl]
  rw [hk1] at hE
  dsimp only at hE
  have hk2 : kalloc { st.vm with freeList := [b, c] } =
      (some b, { st.vm with freeList := [c] }) := rfl
  rw [hk2] at hE
  dsimp only at hE
  rw [if_pos hcond, hpg] at hE
  rw [forkLoop_succ] at hE
  dsimp only at hE
  simp only [Nat.zero_mul, Nat.add_zero, Nat.zero_add] at hE
  -- well-formedness after the three allocations
  have wfA : VMWF { st.vm with freeList := [b, c] } := VMWF_tail st.vm a [b, c] hfl wf
  have wfB : VMWF { st.vm with freeList := [c] } :=
    VMWF_tail { st.vm with freeList := [b, c] } b [c] rfl wfA
  have wfC : VMWF { st.vm with freeList := ([] : List Nat) } :=
    VMWF_tail { st.vm with freeList := [c] } c [] rfl wfB
  set VM3 : VMState := copyPhysPage { st.vm with freeList := [c] } b
      (parent.stacktop - PAGE_SIZE) with hVM3
  have hk3 : kalloc VM3 = (some c, { VM3 with freeList := [] }) := rfl
  set V5 : VMState := zeroDataPage { VM3 with freeList := [] } c with hV5
  have wfV5 : VMWF V5 :=
    VMWF_congr { st.vm with freeList := ([] : List Nat) } V5 rfl rfl rfl wfC
  have hwaV5 : walkExists V5 (HEAP_USER_BASE + st.nextPid.toNat * PER_PROC_HEAP) := hwk0
  have hmape : vmm_map V5 (HEAP_USER_BASE + st.nextPid.toNat * PER_PROC_HEAP) c
      (2 ||| 4) =
      (0, writeTable V5
        (leafTable V5 (HEAP_USER_BASE + st.nextPid.toNat * PER_PROC_HEAP))
        (vpn0 (HEAP_USER_BASE + st.nextPid.toNat * PER_PROC_HEAP))
        (make_pte c (vmm_flags_to_pte_flags ((2 ||| 4) ||| 1)))) :=
    vmm_map_existing V5 _ c (2 ||| 4) wf.pd_ne h640 hclt hal0 hcal hwaV5
      (wf.l1_ne _ hwk0.1) (wf.l0_ne _ _ hwk0)
  set W0 : VMState := writeTable V5
      (leafTable V5 (HEAP_USER_BASE + st.nextPid.toNat * PER_PROC_HEAP))
      (vpn0 (HEAP_USER_BASE + st.nextPid.toNat * PER_PROC_HEAP))
      (make_pte c (vmm_flags_to_pte_flags ((2 ||| 4) ||| 1))) with hW0
  have hmp0 : vmm_map_page VM3 (HEAP_USER_BASE + st.nextPid.toNat * PER_PROC_HEAP)
      (2 ||| 4) = (0, W0) := by
    unfold vmm_map_page
    rw [hk3]
    dsimp only
    rw [← hV5, hmape]
    dsimp only
    rw [if_neg (by decide : ¬ ((0 : Int) ≠ 0))]
  rw [hmp0] at hE
  dsimp only at hE
  rw [if_neg (by decide : ¬ ((0 : Int) ≠ 0))] at hE
  set CU0 : VMState := copyUserPage W0
      (HEAP_USER_BASE + st.nextPid.toNat * PER_PROC_HEAP)
      (parent.brk_base) with hCU0
  rw [forkLoop_succ] at hE
  dsimp only at hE
  simp only [Nat.one_mul] at hE
  have hfulCU0 : CU0.freeList = [] := by
    rw [hCU0, copyUserPage_freeList, hW0, writeTable_freeList, hV5, zeroDataPage_freeList]
  have hk4 : kalloc CU0 = (none, CU0) := by
    unfold kalloc
    rw [hfulCU0]
  have hmp1 : vmm_map_page CU0
      (HEAP_USER_BASE + st.nextPid.toNat * PER_PROC_HEAP + PAGE_SIZE) (2 ||| 4) =
      (-1, CU0) := by
    unfold vmm_map_page
    rw [hk4]
  rw [hmp1] at hE
  dsimp only at hE
  rw [if_pos (by decide : ((-1 : Int) ≠ 0))] at hE
  dsimp only at hE
  rw [if_neg (by decide : ¬ ((false : Bool) = true))] at hE
  -- the rollback unmap of the one mapped child heap page
  have hTcu : CU0.tables = W0.tables := by rw [hCU0, copyUserPage_tables]
  have hPcu : CU0.kernelPd = W0.kernelPd := by rw [hCU0, copyUserPage_kernelPd]
  have hFcu : CU0.freeList = W0.freeList := by rw [hCU0, copyUserPage_freeList]
  have hwaW0 : walkExists W0 (HEAP_USER_BASE + st.nextPid.toNat * PER_PROC_HEAP) := by
    rw [hW0]
    exact walkExists_writeLeaf V5 _ _ _ _ wfV5 hwaV5 hwaV5
  have hwaCU0 : walkExists CU0 (HEAP_USER_BASE + st.nextPid.toNat * PER_PROC_HEAP) :=
    (walkExists_congr W0 CU0 hPcu hTcu _).mpr hwaW0
  have wfW0 : VMWF W0 := by
    rw [hW0]
    exact VMWF_writeLeaf V5 _ _ _ wfV5 hwaV5
  have wfCU0 : VMWF CU0 := VMWF_congr W0 CU0 hPcu hTcu hFcu wfW0
  have hltCU0 : leafTable CU0 (HEAP_USER_BASE + st.nextPid.toNat * PER_PROC_HEAP) =
      leafTable V5 (HEAP_USER_BASE + st.nextPid.toNat * PER_PROC_HEAP) := by
    rw [leafTable_congr W0 CU0 hPcu hTcu, hW0]
    exact leafTable_writeLeaf V5 _ _ _ _ wfV5 hwaV5 hwaV5.1
  have hleafCU0 : CU0.tables
      (leafTable CU0 (HEAP_USER_BASE + st.nextPid.toNat * PER_PROC_HEAP))
      (vpn0 (HEAP_USER_BASE + st.nextPid.toNat * PER_PROC_HEAP)) =
      make_pte c (vmm_flags_to_pte_flags ((2 ||| 4) ||| 1)) := by
    rw [hTcu, hltCU0, hW0, writeTable_tables, if_pos ⟨rfl, rfl⟩]
  have hptev : make_pte c (vmm_flags_to_pte_flags ((2 ||| 4) ||| 1)) % 2 = 1 := by
    rw [make_pte_mod2]
    have h1 := flagsToPte_or_one_mod2 (2 ||| 4)
    have h2 := flagsToPte_lt ((2 ||| 4) ||| 1)
    omega
  have hptep : pte_to_phys (make_pte c (vmm_flags_to_pte_flags ((2 ||| 4) ||| 1))) = c :=
    pte_to_phys_make_pte c _ hcal hclt
  have hpdCU0 : CU0.kernelPd ≠ 0 := by
    rw [hPcu]
    exact wf.pd_ne
  have h1CU0 : l1A CU0 (vpn2 (HEAP_USER_BASE + st.nextPid.toNat * PER_PROC_HEAP)) ≠ 0 := by
    rw [l1A_congr W0 CU0 hPcu hTcu, hW0, l1A_writeLeaf V5 _ _ _ wfV5 hwaV5]
    exact wf.l1_ne _ hwk0.1
  have h0CU0 : leafTable CU0 (HEAP_USER_BASE + st.nextPid.toNat * PER_PROC_HEAP) ≠ 0 := by
    rw [hltCU0]
    exact wf.l0_ne _ _ hwk0
  have hunm : vmm_unmap CU0 (HEAP_USER_BASE + st.nextPid.toNat * PER_PROC_HEAP) 1 =
      (0, kfree (writeTable CU0
        (leafTable CU0 (HEAP_USER_BASE + st.nextPid.toNat * PER_PROC_HEAP))
        (vpn0 (HEAP_USER_BASE + st.nextPid.toNat * PER_PROC_HEAP)) 0)
        (pte_to_phys (CU0.tables
          (leafTable CU0 (HEAP_USER_BASE + st.nextPid.toNat * PER_PROC_HEAP))
          (vpn0 (HEAP_USER_BASE + st.nextPid.toNat * PER_PROC_HEAP))))) := by
    rw [vmm_unmap_existing CU0 _ 1 hpdCU0 h640 hal0 hwaCU0 h1CU0 h0CU0
      (by rw [hleafCU0]; exact hptev)]
    rw [if_pos (by decide : ((1 : Int) ≠ 0))]
  have hur : unmapRange CU0 (HEAP_USER_BASE + st.nextPid.toNat * PER_PROC_HEAP) 0 1 =
      kfree (writeTable CU0
        (leafTable CU0 (HEAP_USER_BASE + st.nextPid.toNat * PER_PROC_HEAP))
        (vpn0 (HEAP_USER_BASE + st.nextPid.toNat * PER_PROC_HEAP)) 0) c := by
    rw [unmapRange_succ, unmapRange_zero]
    simp only [Nat.zero_mul, Nat.add_zero]
    rw [hunm]
    dsimp only
    rw [hleafCU0, hptep]
  rw [hur] at hE
  rw [Prod.mk.injEq] at hE
  obtain ⟨hres, hK⟩ := hE
  subst hres
  subst hK
  rw [hE0]
  refine ⟨rfl, ?_, ?_, rfl, rfl, rfl, hcur.symm⟩
  · dsimp only
    rw [intrOn_vm]
    dsimp only
    rw [kfree_freeList, kfree_freeList, kfree_freeList, writeTable_freeList, hfulCU0, hfl]
  · dsimp only
    rw [intrOn_vm]
    dsimp only
    rw [vmm_translate_kfree, vmm_translate_kfree, vmm_translate_kfree]
    refine vmm_translate_none_of_leaf_invalid _ _ h640
      (walkExists_writeLeaf CU0 _ _ _ _ wfCU0 hwaCU0 hwaCU0) ?_
    rw [leafTable_writeLeaf CU0 _ _ _ _ wfCU0 hwaCU0 hwaCU0.1, writeTable_tables,
      if_pos ⟨rfl, rfl⟩]

/-- A concrete running parent process with a two-page user heap at the
per-pid heap slot for pid 1. -/
def par3 : PCB where
  addr := 77
  pid := 1
  ppid := 0
  name := "u"
  pstat := PState.RUNNING
  prior := 1
  entrypoint := 0
  regstat := rs0
  stacktop := 409600
  brk_base := 0x80402000
  brk_size := 8192

/-- A concrete kernel state over `st1` (three free pages) with `par3`
current and `next_pid = 2`. -/
def k3 : Kernel where
  vm := st1
  nextPid := 2
  idle := mkPCB 1000 0 0 PState.READY
  current := some par3
  ready := []
  blocked := []
  zombies := []
  intr := true

/-- Witness for C3: forking `par3` in `k3` exhausts the allocator on the
second heap page; the fork fails and rolls back completely. -/
theorem c3_fork_rollback_witness :
    (proc_fork k3 100).1 = none ∧
    (proc_fork k3 100).2.vm.freeList = k3.vm.freeList ∧
    vmm_translate (proc_fork k3 100).2.vm
        (HEAP_USER_BASE + k3.nextPid.toNat * PER_PROC_HEAP) = none ∧
    (proc_fork k3 100).2.ready = k3.ready ∧
    (proc_fork k3 100).2.blocked = k3.blocked ∧
    (proc_fork k3 100).2.zombies = k3.zombies ∧
    (proc_fork k3 100).2.current = k3.current :=
  c3_fork_rollback k3 par3 100 8192 12288 16384 st1_wf rfl (by decide) (by decide)
    (by decide) (by decide)
    (by intro j hj; unfold walkExists L0V L1V l1A; interval_cases j <;> decide) rfl

/-- `copyPhysPage` does not change translations. -/
theorem vmm_translate_copyPhysPage (st : VMState) (d s va : Nat) :
    vmm_translate (copyPhysPage st d s) va = vmm_translate st va :=
  vmm_translate_congr st (copyPhysPage st d s) va rfl rfl

/-! ## Claim C2 -/

/-- **C2.** `proc_fork` is deterministic given the parent's state (it is a
function of the kernel state in this model); on success the child's saved
register state equals the parent's except that `x10` (`a0`) is 0, `sepc`
is `mepc + 4`, and `sp` sits at the same offset below the child's
`stacktop` as the parent's `sp` sits below the parent's `stacktop`;
`child.ppid = parent.pid`; and — the parent having a user heap — every
byte of the child's heap pages equals the corresponding byte of the
parent's (through the final address translation).  Hypotheses: a
well-formed VM state, the standard per-pid heap layout, existing
intermediate page-table levels for the child's heap window, and parent
heap pages that are live (translated, not on the free list). -/
theorem c2_fork_child_state (st : Kernel) (parent : PCB) (mepc : Nat)
    (child : PCB) (st' : Kernel)
    (wf : VMWF st.vm)
    (hcur : st.current = some parent)
    (hbb : parent.brk_base = HEAP_USER_BASE + parent.pid.toNat * PER_PROC_HEAP)
    (hpid0 : 0 ≤ parent.pid) (hpidlt : parent.pid < st.nextPid)
    (hnp : st.nextPid < 2 ^ 20)
    (hbs : 0 < parent.brk_size) (hbs8 : parent.brk_size ≤ 2 * PAGE_SIZE)
    (hwk : ∀ j, j < (parent.brk_size + PAGE_SIZE - 1) / PAGE_SIZE → walkExists st.vm
        (HEAP_USER_BASE + st.nextPid.toNat * PER_PROC_HEAP + j * PAGE_SIZE))
    (hpar : ∀ i, i < (parent.brk_size + PAGE_SIZE - 1) / PAGE_SIZE → ∃ ppa,
        vmm_translate st.vm (parent.brk_base + i * PAGE_SIZE) = some ppa ∧
        ppa ∉ st.vm.freeList)
    (hfork : proc_fork st mepc = (some child, st')) :
    child.regstat = { parent.regstat with
      x10 := 0
      sepc := mepc + 4
      sp := child.stacktop - (parent.stacktop - parent.regstat.sp) } ∧
    child.ppid = parent.pid ∧
    child.pid = st.nextPid ∧
    child.brk_base = HEAP_USER_BASE + st.nextPid.toNat * PER_PROC_HEAP ∧
    child.brk_size = parent.brk_size ∧
    st'.ready = st.ready ++ [child] ∧
    (∀ i, i < (parent.brk_size + PAGE_SIZE - 1) / PAGE_SIZE → ∀ off, off < PAGE_SIZE →
      ∃ cpa ppa,
        vmm_translate st'.vm (child.brk_base + i * PAGE_SIZE) = some cpa ∧
        vmm_translate st'.vm (parent.brk_base + i * PAGE_SIZE) = some ppa ∧
        st'.vm.phys (cpa + off) = st'.vm.phys (ppa + off)) := by
  have hPlt : parent.pid.toNat < st.nextPid.toNat := by omega
  have hNlt : st.nextPid.toNat < 2 ^ 20 := by omega
  have hal0 : (HEAP_USER_BASE + st.nextPid.toNat * PER_PROC_HEAP) % 4096 = 0 := by
    simp only [HEAP_USER_BASE, PER_PROC_HEAP]
    omega
  have h640 : HEAP_USER_BASE + st.nextPid.toNat * PER_PROC_HEAP < 2 ^ 64 := by
    simp only [HEAP_USER_BASE, PER_PROC_HEAP]
    omega
  have h390 : HEAP_USER_BASE + st.nextPid.toNat * PER_PROC_HEAP < 2 ^ 39 := by
    simp only [HEAP_USER_BASE, PER_PROC_HEAP]
    omega
  have hal1 : (HEAP_USER_BASE + st.nextPid.toNat * PER_PROC_HEAP + PAGE_SIZE) % 4096 = 0 := by
    simp only [HEAP_USER_BASE, PER_PROC_HEAP, PAGE_SIZE]
    omega
  have h641 : HEAP_USER_BASE + st.nextPid.toNat * PER_PROC_HEAP + PAGE_SIZE < 2 ^ 64 := by
    simp only [HEAP_USER_BASE, PER_PROC_HEAP, PAGE_SIZE]
    omega
  have h391 : HEAP_USER_BASE + st.nextPid.toNat * PER_PROC_HEAP + PAGE_SIZE < 2 ^ 39 := by
    simp only [HEAP_USER_BASE, PER_PROC_HEAP, PAGE_SIZE]
    omega
  have halp : parent.brk_base % 4096 = 0 := by
    rw [hbb]
    simp only [HEAP_USER_BASE, PER_PROC_HEAP]
    omega
  have h64p : parent.brk_base < 2 ^ 64 := by
    rw [hbb]
    simp only [HEAP_USER_BASE, PER_PROC_HEAP]
    omega
  have h39p : parent.brk_base < 2 ^ 39 := by
    rw [hbb]
    simp only [HEAP_USER_BASE, PER_PROC_HEAP]
    omega
  have halp1 : (parent.brk_base + PAGE_SIZE) % 4096 = 0 := by
    rw [hbb]
    simp only [HEAP_USER_BASE, PER_PROC_HEAP, PAGE_SIZE]
    omega
  have h64p1 : parent.brk_base + PAGE_SIZE < 2 ^ 64 := by
    rw [hbb]
    simp only [HEAP_USER_BASE, PER_PROC_HEAP, PAGE_SIZE]
    omega
  have h39p1 : parent.brk_base + PAGE_SIZE < 2 ^ 39 := by
    rw [hbb]
    simp only [HEAP_USER_BASE, PER_PROC_HEAP, PAGE_SIZE]
    omega
  have hnp0c0 : parent.brk_base ≠ HEAP_USER_BASE + st.nextPid.toNat * PER_PROC_HEAP := by
    rw [hbb]
    simp only [HEAP_USER_BASE, PER_PROC_HEAP]
    omega
  have hnp0c1 : parent.brk_base ≠
      HEAP_USER_BASE + st.nextPid.toNat * PER_PROC_HEAP + PAGE_SIZE := by
    rw [hbb]
    simp only [HEAP_USER_BASE, PER_PROC_HEAP, PAGE_SIZE]
    omega
  have hnp1c0 : parent.brk_base + PAGE_SIZE ≠
      HEAP_USER_BASE + st.nextPid.toNat * PER_PROC_HEAP := by
    rw [hbb]
    simp only [HEAP_USER_BASE, PER_PROC_HEAP, PAGE_SIZE]
    omega
  have hnp1c1 : parent.brk_base + PAGE_SIZE ≠
      HEAP_USER_BASE + st.nextPid.toNat * PER_PROC_HEAP + PAGE_SIZE := by
    rw [hbb]
    simp only [HEAP_USER_BASE, PER_PROC_HEAP, PAGE_SIZE]
    omega
  have hnc0c1 : HEAP_USER_BASE + st.nextPid.toNat * PER_PROC_HEAP ≠
      HEAP_USER_BASE + st.nextPid.toNat * PER_PROC_HEAP + PAGE_SIZE := by
    simp only [PAGE_SIZE]
    omega
  have hdivpos : 0 < (parent.brk_size + PAGE_SIZE - 1) / PAGE_SIZE := by
    simp only [PAGE_SIZE]
    omega
  have hwk0 : walkExists st.vm (HEAP_USER_BASE + st.nextPid.toNat * PER_PROC_HEAP) := by
    have h := hwk 0 hdivpos
    simpa using h
  obtain ⟨ppa0, hppa0, hppa0nf⟩ := hpar 0 hdivpos
  simp only [Nat.zero_mul, Nat.add_zero] at hppa0
  have hppa0al : ppa0 % 4096 = 0 := by
    obtain ⟨-, -, -, -, -, hp⟩ := vmm_translate_some_inv st.vm parent.brk_base ppa0 h64p hppa0
    have h1 := pte_to_phys_aligned (st.vm.tables (leafTable st.vm parent.brk_base)
      (vpn0 parent.brk_base))
    have h2 : pageOffset parent.brk_base = 0 := by
      unfold pageOffset
      omega
    omega
  have hcond : parent.brk_base ≠ 0 ∧ parent.brk_size > 0 := by
    refine ⟨?_, hbs⟩
    rw [hbb]
    simp only [HEAP_USER_BASE, PER_PROC_HEAP]
    omega
  have hpg12 : (parent.brk_size + PAGE_SIZE - 1) / PAGE_SIZE = 1 ∨
      (parent.brk_size + PAGE_SIZE - 1) / PAGE_SIZE = 2 := by
    simp only [PAGE_SIZE] at hbs8 ⊢
    omega
  -- evaluate the fork
  unfold proc_fork at hfork
  dsimp only at hfork
  simp only [intrOff_current, intrOff_vm, intrOff_nextPid, intrOff_idle, intrOff_ready,
    intrOff_blocked, intrOff_zombies, intrOff_intr] at hfork
  rw [hcur] at hfork
  dsimp only at hfork
  rcases hfl1 : st.vm.freeList with - | ⟨a, tl1⟩
  · have hk1 : kalloc st.vm = (none, st.vm) := by
      unfold kalloc
      rw [hfl1]
    rw [hk1] at hfork
    dsimp only at hfork
    simp at hfork
  have hk1 : kalloc st.vm = (some a, { st.vm with freeList := tl1 }) := by
    unfold kalloc
    rw [hfl1]
  rw [hk1] at hfork
  dsimp only at hfork
  rcases tl1 with - | ⟨b, tl2⟩
  · have hk2 : kalloc { st.vm with freeList := ([] : List Nat) } =
        (none, { st.vm with freeList := ([] : List Nat) }) := rfl
    rw [hk2] at hfork
    dsimp only at hfork
    simp at hfork
  have hk2 : kalloc { st.vm with freeList := b :: tl2 } =
      (some b, { st.vm with freeList := tl2 }) := rfl
  rw [hk2] at hfork
  dsimp only at hfork
  rw [if_pos hcond] at hfork
  rcases tl2 with - | ⟨c, tl3⟩
  · -- no page left for the first heap copy: fork would have failed
    have hk3n : kalloc (copyPhysPage { st.vm with freeList := ([] : List Nat) } b
        (parent.stacktop - PAGE_SIZE)) =
        (none, copyPhysPage { st.vm with freeList := ([] : List Nat) } b
          (parent.stacktop - PAGE_SIZE)) := rfl
    have hmp0n : vmm_map_page (copyPhysPage { st.vm with freeList := ([] : List Nat) } b
        (parent.stacktop - PAGE_SIZE))
        (HEAP_USER_BASE + st.nextPid.toNat * PER_PROC_HEAP) (2 ||| 4) =
        (-1, copyPhysPage { st.vm with freeList := ([] : List Nat) } b
          (parent.stacktop - PAGE_SIZE)) := by
      unfold vmm_map_page
      rw [hk3n]
    rcases hpg12 with hpg | hpg <;>
      rw [hpg] at hfork <;>
      rw [forkLoop_succ] at hfork <;>
      dsimp only at hfork <;>
      simp only [Nat.zero_mul, Nat.add_zero, Nat.zero_add] at hfork <;>
      rw [hmp0n] at hfork <;>
      dsimp only at hfork <;>
      rw [if_pos (by decide : ((-1 : Int) ≠ 0))] at hfork <;>
      dsimp only at hfork <;>
      rw [if_neg (by decide : ¬ ((false : Bool) = true))] at hfork <;>
      simp at hfork
  -- the first heap page maps successfully
  have hmc : c ∈ st.vm.freeList := by
    rw [hfl1]
    simp
  have hcal : c % 4096 = 0 := wf.fr_al c hmc
  have hclt : c < 2 ^ 64 := wf.fr_lt c hmc
  have hcppa0 : c ≠ ppa0 := fun he => hppa0nf (he ▸ hmc)
  set VM3 : VMState := copyPhysPage { st.vm with freeList := c :: tl3 } b
      (parent.stacktop - PAGE_SIZE) with hVM3
  have hk3 : kalloc VM3 = (some c, { VM3 with freeList := tl3 }) := rfl
  set V5 : VMState := zeroDataPage { VM3 with freeList := tl3 } c with hV5
  have wfA : VMWF { st.vm with freeList := b :: c :: tl3 } :=
    VMWF_tail st.vm a (b :: c :: tl3) hfl1 wf
  have wfB : VMWF { st.vm with freeList := c :: tl3 } :=
    VMWF_tail { st.vm with freeList := b :: c :: tl3 } b (c :: tl3) rfl wfA
  have wfC2 : VMWF { st.vm with freeList := tl3 } :=
    VMWF_tail { st.vm with freeList := c :: tl3 } c tl3 rfl wfB
  have wfV5 : VMWF V5 := VMWF_congr { st.vm with freeList := tl3 } V5 rfl rfl rfl wfC2
  have hwaV5 : walkExists V5 (HEAP_USER_BASE + st.nextPid.toNat * PER_PROC_HEAP) := hwk0
  have hmape : vmm_map V5 (HEAP_USER_BASE + st.nextPid.toNat * PER_PROC_HEAP) c
      (2 ||| 4) =
      (0, writeTable V5
        (leafTable V5 (HEAP_USER_BASE + st.nextPid.toNat * PER_PROC_HEAP))
        (vpn0 (HEAP_USER_BASE + st.nextPid.toNat * PER_PROC_HEAP))
        (make_pte c (vmm_flags_to_pte_flags ((2 ||| 4) ||| 1)))) :=
    vmm_map_existing V5 _ c (2 ||| 4) wf.pd_ne h640 hclt hal0 hcal hwaV5
      (wf.l1_ne _ hwk0.1) (wf.l0_ne _ _ hwk0)
  set W0 : VMState := writeTable V5
      (leafTable V5 (HEAP_USER_BASE + st.nextPid.toNat * PER_PROC_HEAP))
      (vpn0 (HEAP_USER_BASE + st.nextPid.toNat * PER_PROC_HEAP))
      (make_pte c (vmm_flags_to_pte_flags ((2 ||| 4) ||| 1))) with hW0
  have hmp0 : vmm_map_page VM3 (HEAP_USER_BASE + st.nextPid.toNat * PER_PROC_HEAP)
      (2 ||| 4) = (0, W0) := by
    unfold vmm_map_page
    rw [hk3]
    dsimp only
    rw [← hV5, hmape]
    dsimp only
    rw [if_neg (by decide : ¬ ((0 : Int) ≠ 0))]
  have wfW0 : VMWF W0 := by
    rw [hW0]
    exact VMWF_writeLeaf V5 _ _ _ wfV5 hwaV5
  have hptevc : make_pte c (vmm_flags_to_pte_flags ((2 ||| 4) ||| 1)) % 2 = 1 := by
    rw [make_pte_mod2]
    have h1 := flagsToPte_or_one_mod2 (2 ||| 4)
    have h2 := flagsToPte_lt ((2 ||| 4) ||| 1)
    omega
  have hptepc : pte_to_phys (make_pte c (vmm_flags_to_pte_flags ((2 ||| 4) ||| 1))) = c :=
    pte_to_phys_make_pte c _ hcal hclt
  have hpoc0 : pageOffset (HEAP_USER_BASE + st.nextPid.toNat * PER_PROC_HEAP) = 0 := by
    unfold pageOffset
    omega
  have hTc0 : vmm_translate W0 (HEAP_USER_BASE + st.nextPid.toNat * PER_PROC_HEAP) =
      some c := by
    have h := vmm_translate_writeLeaf_self V5 _
      (make_pte c (vmm_flags_to_pte_flags ((2 ||| 4) ||| 1))) wfV5 hwaV5 h640 hptevc
    rw [← hW0] at h
    rw [h, hptepc, hpoc0, Nat.add_zero]
  have hTp0 : vmm_translate W0 parent.brk_base = some ppa0 := by
    have h := vmm_translate_writeLeaf_frame V5 _ parent.brk_base
      (make_pte c (vmm_flags_to_pte_flags ((2 ||| 4) ||| 1))) wfV5 hwaV5 hal0 h390 halp
      h39p hnp0c0
    rw [← hW0] at h
    rw [h, vmm_translate_congr st.vm V5 parent.brk_base rfl rfl]
    exact hppa0
  have hcup0 : copyUserPage W0 (HEAP_USER_BASE + st.nextPid.toNat * PER_PROC_HEAP)
      parent.brk_base = copyPhysPage W0 c ppa0 := by
    unfold copyUserPage
    rw [hTc0, hTp0]
  rcases hpg12 with hpg | hpg
  · -- one heap page
    rw [hpg] at hfork ⊢
    rw [forkLoop_succ] at hfork
    dsimp only at hfork
    simp only [Nat.zero_mul, Nat.add_zero, Nat.zero_add] at hfork
    rw [hmp0] at hfork
    dsimp only at hfork
    rw [if_neg (by decide : ¬ ((0 : Int) ≠ 0))] at hfork
    rw [hcup0, forkLoop_zero] at hfork
    dsimp only at hfork
    rw [if_pos rfl] at hfork
    rw [Prod.mk.injEq, Option.some.injEq] at hfork
    obtain ⟨hc, hK⟩ := hfork
    subst hc
    subst hK
    refine ⟨rfl, rfl, rfl, rfl, rfl, rfl, ?_⟩
    intro i hi off hoff
    have hi0 : i = 0 := by omega
    subst hi0
    have hoff' : off < 4096 := by
      simpa [PAGE_SIZE] using hoff
    refine ⟨c, ppa0, ?_, ?_, ?_⟩
    · dsimp only
      rw [intrOn_vm]
      dsimp only
      simp only [Nat.zero_mul, Nat.add_zero]
      rw [vmm_translate_copyPhysPage]
      exact hTc0
    · dsimp only
      rw [intrOn_vm]
      dsimp only
      simp only [Nat.zero_mul, Nat.add_zero]
      rw [vmm_translate_copyPhysPage]
      exact hTp0
    · dsimp only
      rw [intrOn_vm]
      dsimp only
      rw [copyPhysPage_phys_in W0 c ppa0 off hoff',
        copyPhysPage_phys_out W0 c ppa0 (ppa0 + off)
          (pages_disjoint c ppa0 off hcal hppa0al hcppa0 hoff')]
  · -- two heap pages
    rw [hpg] at hfork hwk hpar ⊢
    rw [forkLoop_succ] at hfork
    dsimp only at hfork
    simp only [Nat.zero_mul, Nat.add_zero, Nat.zero_add] at hfork
    rw [hmp0] at hfork
    dsimp only at hfork
    rw [if_neg (by decide : ¬ ((0 : Int) ≠ 0))] at hfork
    rw [hcup0] at hfork
    rw [forkLoop_succ] at hfork
    dsimp only at hfork
    simp only [Nat.one_mul] at hfork
    rcases tl3 with - | ⟨d, tl4⟩
    · -- no page left for the second heap page: fork would have failed
      have hk4n : kalloc (copyPhysPage W0 c ppa0) = (none, copyPhysPage W0 c ppa0) := rfl
      have hmp1n : vmm_map_page (copyPhysPage W0 c ppa0)
          (HEAP_USER_BASE + st.nextPid.toNat * PER_PROC_HEAP + PAGE_SIZE) (2 ||| 4) =
          (-1, copyPhysPage W0 c ppa0) := by
        unfold vmm_map_page
        rw [hk4n]
      rw [hmp1n] at hfork
      dsimp only at hfork
      rw [if_pos (by decide : ((-1 : Int) ≠ 0))] at hfork
      dsimp only at hfork
      rw [if_neg (by decide : ¬ ((false : Bool) = true))] at hfork
      simp at hfork
    -- the second heap page maps successfully
    have hwk1 : walkExists st.vm
        (HEAP_USER_BASE + st.nextPid.toNat * PER_PROC_HEAP + PAGE_SIZE) := by
      have h := hwk 1 (by omega)
      simpa using h
    obtain ⟨ppa1, hppa1, hppa1nf⟩ := hpar 1 (by omega)
    simp only [Nat.one_mul] at hppa1
    have hppa1al : ppa1 % 4096 = 0 := by
      obtain ⟨-, -, -, -, -, hp⟩ := vmm_translate_some_inv st.vm
        (parent.brk_base + PAGE_SIZE) ppa1 h64p1 hppa1
      have h1 := pte_to_phys_aligned (st.vm.tables
        (leafTable st.vm (parent.brk_base + PAGE_SIZE))
        (vpn0 (parent.brk_base + PAGE_SIZE)))
      have h2 : pageOffset (parent.brk_base + PAGE_SIZE) = 0 := by
        unfold pageOffset
        omega
      omega
    have hmd : d ∈ st.vm.freeList := by
      rw [hfl1]
      simp
    have hdal : d % 4096 = 0 := wf.fr_al d hmd
    have hdlt : d < 2 ^ 64 := wf.fr_lt d hmd
    have hnd := wf.fr_nodup
    rw [hfl1] at hnd
    simp only [List.nodup_cons, List.mem_cons] at hnd
    have hcd : c ≠ d := fun he => hnd.2.2.1 (Or.inl he)
    have hdc : d ≠ c := hcd.symm
    have hdppa0 : d ≠ ppa0 := fun he => hppa0nf (he ▸ hmd)
    have hdppa1 : d ≠ ppa1 := fun he => hppa1nf (he ▸ hmd)
    have hcppa1 : c ≠ ppa1 := fun he => hppa1nf (he ▸ hmc)
    have hk4 : kalloc (copyPhysPage W0 c ppa0) =
        (some d, { copyPhysPage W0 c ppa0 with freeList := tl4 }) := rfl
    set V5b : VMState := zeroDataPage { copyPhysPage W0 c ppa0 with freeList := tl4 } d
      with hV5b
    have hfwl : W0.freeList = d :: tl4 := by
      rw [hW0, writeTable_freeList, hV5, zeroDataPage_freeList]
    have wfW0t : VMWF { W0 with freeList := tl4 } := VMWF_tail W0 d tl4 hfwl wfW0
    have wfV5b : VMWF V5b := VMWF_congr { W0 with freeList := tl4 } V5b rfl rfl rfl wfW0t
    have hwaW0c1 : walkExists W0
        (HEAP_USER_BASE + st.nextPid.toNat * PER_PROC_HEAP + PAGE_SIZE) := by
      rw [hW0]
      exact walkExists_writeLeaf V5 _ _ _ _ wfV5 hwaV5 hwk1
    have hwaV5b : walkExists V5b
        (HEAP_USER_BASE + st.nextPid.toNat * PER_PROC_HEAP + PAGE_SIZE) := hwaW0c1
    have h1b : l1A V5b (vpn2 (HEAP_USER_BASE + st.nextPid.toNat * PER_PROC_HEAP +
        PAGE_SIZE)) ≠ 0 := by
      have h : l1A W0 (vpn2 (HEAP_USER_BASE + st.nextPid.toNat * PER_PROC_HEAP +
          PAGE_SIZE)) ≠ 0 := by
        rw [hW0, l1A_writeLeaf V5 _ _ _ wfV5 hwaV5]
        exact wf.l1_ne _ hwk1.1
      exact h
    have h0b : leafTable V5b (HEAP_USER_BASE + st.nextPid.toNat * PER_PROC_HEAP +
        PAGE_SIZE) ≠ 0 := by
      have h : leafTable W0 (HEAP_USER_BASE + st.nextPid.toNat * PER_PROC_HEAP +
          PAGE_SIZE) ≠ 0 := by
        rw [hW0, leafTable_writeLeaf V5 _ _ _ _ wfV5 hwaV5 hwk1.1]
        exact wf.l0_ne _ _ hwk1
      exact h
    have hmapeb : vmm_map V5b
        (HEAP_USER_BASE + st.nextPid.toNat * PER_PROC_HEAP + PAGE_SIZE) d (2 ||| 4) =
        (0, writeTable V5b
          (leafTable V5b (HEAP_USER_BASE + st.nextPid.toNat * PER_PROC_HEAP + PAGE_SIZE))
          (vpn0 (HEAP_USER_BASE + st.nextPid.toNat * PER_PROC_HEAP + PAGE_SIZE))
          (make_pte d (vmm_flags_to_pte_flags ((2 ||| 4) ||| 1)))) :=
      vmm_map_existing V5b _ d (2 ||| 4) wf.pd_ne h641 hdlt hal1 hdal hwaV5b h1b h0b
    set W1 : VMState := writeTable V5b
        (leafTable V5b (HEAP_USER_BASE + st.nextPid.toNat * PER_PROC_HEAP + PAGE_SIZE))
        (vpn0 (HEAP_USER_BASE + st.nextPid.toNat * PER_PROC_HEAP + PAGE_SIZE))
        (make_pte d (vmm_flags_to_pte_flags ((2 ||| 4) ||| 1))) with hW1
    have hmp1 : vmm_map_page (copyPhysPage W0 c ppa0)
        (HEAP_USER_BASE + st.nextPid.toNat * PER_PROC_HEAP + PAGE_SIZE) (2 ||| 4) =
        (0, W1) := by
      unfold vmm_map_page
      rw [hk4]
      dsimp only
      rw [← hV5b, hmapeb]
      dsimp only
      rw [if_neg (by decide : ¬ ((0 : Int) ≠ 0))]
    rw [hmp1] at hfork
    dsimp only at hfork
    rw [if_neg (by decide : ¬ ((0 : Int) ≠ 0))] at hfork
    have hptevd : make_pte d (vmm_flags_to_pte_flags ((2 ||| 4) ||| 1)) % 2 = 1 := by
      rw [make_pte_mod2]
      have h1 := flagsToPte_or_one_mod2 (2 ||| 4)
      have h2 := flagsToPte_lt ((2 ||| 4) ||| 1)
      omega
    have hptepd : pte_to_phys (make_pte d (vmm_flags_to_pte_flags ((2 ||| 4) ||| 1))) = d :=
      pte_to_phys_make_pte d _ hdal hdlt
    have hpoc1 : pageOffset (HEAP_USER_BASE + st.nextPid.toNat * PER_PROC_HEAP +
        PAGE_SIZE) = 0 := by
      unfold pageOffset
      omega
    have hTc1 : vmm_translate W1
        (HEAP_USER_BASE + st.nextPid.toNat * PER_PROC_HEAP + PAGE_SIZE) = some d := by
      have h := vmm_translate_writeLeaf_self V5b _
        (make_pte d (vmm_flags_to_pte_flags ((2 ||| 4) ||| 1))) wfV5b hwaV5b h641 hptevd
      rw [← hW1] at h
      rw [h, hptepd, hpoc1, Nat.add_zero]
    have hTp1 : vmm_translate W1 (parent.brk_base + PAGE_SIZE) = some ppa1 := by
      have h := vmm_translate_writeLeaf_frame V5b _ (parent.brk_base + PAGE_SIZE)
        (make_pte d (vmm_flags_to_pte_flags ((2 ||| 4) ||| 1))) wfV5b hwaV5b hal1 h391
        halp1 h39p1 hnp1c1
      rw [← hW1] at h
      rw [h, vmm_translate_congr (copyPhysPage W0 c ppa0) V5b _ rfl rfl,
        vmm_translate_copyPhysPage]
      have h2 := vmm_translate_writeLeaf_frame V5 _ (parent.brk_base + PAGE_SIZE)
        (make_pte c (vmm_flags_to_pte_flags ((2 ||| 4) ||| 1))) wfV5 hwaV5 hal0 h390
        halp1 h39p1 hnp1c0
      rw [← hW0] at h2
      rw [h2, vmm_translate_congr st.vm V5 _ rfl rfl]
      exact hppa1
    have hcup1 : copyUserPage W1
        (HEAP_USER_BASE + st.nextPid.toNat * PER_PROC_HEAP + PAGE_SIZE)
        (parent.brk_base + PAGE_SIZE) = copyPhysPage W1 d ppa1 := by
      unfold copyUserPage
      rw [hTc1, hTp1]
    rw [hcup1, forkLoop_zero] at hfork
    dsimp only at hfork
    rw [if_pos rfl] at hfork
    rw [Prod.mk.injEq, Option.some.injEq] at hfork
    obtain ⟨hc, hK⟩ := hfork
    subst hc
    subst hK
    refine ⟨rfl, rfl, rfl, rfl, rfl, rfl, ?_⟩
    intro i hi off hoff
    have hoff' : off < 4096 := by
      simpa [PAGE_SIZE] using hoff
    interval_cases i
    · refine ⟨c, ppa0, ?_, ?_, ?_⟩
      · dsimp only
        rw [intrOn_vm]
        dsimp only
        simp only [Nat.zero_mul, Nat.add_zero]
        rw [vmm_translate_copyPhysPage]
        have h := vmm_translate_writeLeaf_frame V5b _
          (HEAP_USER_BASE + st.nextPid.toNat * PER_PROC_HEAP)
          (make_pte d (vmm_flags_to_pte_flags ((2 ||| 4) ||| 1))) wfV5b hwaV5b hal1 h391
          hal0 h390 hnc0c1
        rw [← hW1] at h
        rw [h, vmm_translate_congr (copyPhysPage W0 c ppa0) V5b _ rfl rfl,
          vmm_translate_copyPhysPage]
        exact hTc0
      · dsimp only
        rw [intrOn_vm]
        dsimp only
        simp only [Nat.zero_mul, Nat.add_zero]
        rw [vmm_translate_copyPhysPage]
        have h := vmm_translate_writeLeaf_frame V5b _ parent.brk_base
          (make_pte d (vmm_flags_to_pte_flags ((2 ||| 4) ||| 1))) wfV5b hwaV5b hal1 h391
          halp h39p hnp0c1
        rw [← hW1] at h
        rw [h, vmm_translate_congr (copyPhysPage W0 c ppa0) V5b _ rfl rfl,
          vmm_translate_copyPhysPage]
        exact hTp0
      · dsimp only
        rw [intrOn_vm]
        dsimp only
        rw [copyPhysPage_phys_out W1 d ppa1 (c + off)
            (pages_disjoint d c off hdal hcal hdc hoff'),
          copyPhysPage_phys_out W1 d ppa1 (ppa0 + off)
            (pages_disjoint d ppa0 off hdal hppa0al hdppa0 hoff'),
          hW1, writeTable_phys, hV5b,
          zeroDataPage_phys_out _ _ _ (pages_disjoint d c off hdal hcal hdc hoff'),
          zeroDataPage_phys_out _ _ _ (pages_disjoint d ppa0 off hdal hppa0al hdppa0 hoff')]
        show (copyPhysPage W0 c ppa0).phys (c + off) =
          (copyPhysPage W0 c ppa0).phys (ppa0 + off)
        rw [copyPhysPage_phys_in W0 c ppa0 off hoff',
          copyPhysPage_phys_out W0 c ppa0 (ppa0 + off)
            (pages_disjoint c ppa0 off hcal hppa0al hcppa0 hoff')]
    · refine ⟨d, ppa1, ?_, ?_, ?_⟩
      · dsimp only
        rw [intrOn_vm]
        dsimp only
        simp only [Nat.one_mul]
        rw [vmm_translate_copyPhysPage]
        exact hTc1
      · dsimp only
        rw [intrOn_vm]
        dsimp only
        simp only [Nat.one_mul]
        rw [vmm_translate_copyPhysPage]
        exact hTp1
      · dsimp only
        rw [intrOn_vm]
        dsimp only
        rw [copyPhysPage_phys_in W1 d ppa1 off hoff',
          copyPhysPage_phys_out W1 d ppa1 (ppa1 + off)
            (pages_disjoint d ppa1 off hdal hppa1al hdppa1 hoff')]

/-- A concrete running parent process with a one-page user heap at the
per-pid heap slot for pid 1, mapped in `st1` (`0x80402000 → 0x80002000`). -/
def par2 : PCB where
  addr := 66
  pid := 1
  ppid := 0
  name := "u"
  pstat := PState.RUNNING
  prior := 1
  entrypoint := 0
  regstat := rs0
  stacktop := 409600
  brk_base := 0x80402000
  brk_size := 4096

/-- A concrete kernel state over `st1` (three free pages) with `par2`
current and `next_pid = 2`. -/
def k2 : Kernel where
  vm := st1
  nextPid := 2
  idle := mkPCB 1000 0 0 PState.READY
  current := some par2
  ready := []
  blocked := []
  zombies := []
  intr := true

/-- The child `proc_fork` produces in the `k2` witness state. -/
def child2 : PCB := (proc_fork k2 100).1.getD (mkPCB 0 0 0 PState.READY)

/-- Witness for C2: forking `par2` in `k2` succeeds and produces a child
with the claimed register state and a byte-identical heap copy. -/
theorem c2_fork_child_state_witness :
    child2.regstat = { par2.regstat with
      x10 := 0
      sepc := 100 + 4
      sp := child2.stacktop - (par2.stacktop - par2.regstat.sp) } ∧
    child2.ppid = par2.pid ∧
    child2.pid = k2.nextPid ∧
    child2.brk_base = HEAP_USER_BASE + k2.nextPid.toNat * PER_PROC_HEAP ∧
    child2.brk_size = par2.brk_size ∧
    (proc_fork k2 100).2.ready = k2.ready ++ [child2] ∧
    (∀ i, i < (par2.brk_size + PAGE_SIZE - 1) / PAGE_SIZE → ∀ off, off < PAGE_SIZE →
      ∃ cpa ppa,
        vmm_translate (proc_fork k2 100).2.vm (child2.brk_base + i * PAGE_SIZE) =
          some cpa ∧
        vmm_translate (proc_fork k2 100).2.vm (par2.brk_base + i * PAGE_SIZE) =
          some ppa ∧
        (proc_fork k2 100).2.vm.phys (cpa + off) =
          (proc_fork k2 100).2.vm.phys (ppa + off)) :=
  c2_fork_child_state k2 par2 100 child2 (proc_fork k2 100).2 st1_wf rfl (by decide)
    (by decide) (by decide) (by decide) (by decide) (by decide)
    (by intro j hj
        have h1 : (par2.brk_size + PAGE_SIZE - 1) / PAGE_SIZE = 1 := by decide
        rw [h1] at hj
        have hj0 : j = 0 := by omega
        subst hj0
        unfold walkExists L0V L1V l1A
        decide)
    (by intro i hi
        have h1 : (par2.brk_size + PAGE_SIZE - 1) / PAGE_SIZE = 1 := by decide
        rw [h1] at hi
        have hi0 : i = 0 := by omega
        subst hi0
        exact ⟨0x80002000, by decide, by decide⟩)
    (Prod.ext (by decide) rfl)

end MiniOS
